import Mathlib

/-!
Verification development for the Aegean source-finding program
(files `aegean.py` and `AegeanTools/fits_image.py`).

Conventions of the shallow embedding:
* Floating-point flux/noise values are modelled as rationals (`ℚ`); the
  invalid-pixel sentinel `NaN` is modelled by `Option ℚ` with `none` playing
  the role of `NaN` (any IEEE comparison against `NaN` is false, which the
  embedding reproduces by pattern matching).  Quantities that the source
  derives from transcendental functions (`math.sqrt`, `math.cos`, `math.log`,
  `np.pi`) are modelled over `ℝ`.
* `numpy` arrays are modelled as a `Grid`: a shape together with a total
  function from coordinates to values; in-place mutation becomes functional
  update.
* The file is Python 2, so `/` between integers is floor division; this is
  modelled with `Nat.div` / `Int.div` as appropriate, and `int(x)` on a float
  is truncation toward zero.
* `mpfit` (the Levenberg–Marquardt solver) and `pywcs` (the pixel/sky
  transform) are external imports, not part of this repository: the solver's
  output and the `pix2sky` function are treated as unconstrained inputs to
  the code that consumes them.
-/

/-- Bit flags for the flood routines (`aegean.py` lines 62-64). -/
def PEAKED : ℕ := 1
def QUEUED : ℕ := 2
def VISITED : ℕ := 4

/-- Error flag: island too small to fit reliably (`aegean.py` line 67). -/
def FITERRSMALL : ℕ := 1
/-- Error flag: fit produced no usable error estimates (`aegean.py` line 68). -/
def FITERR : ℕ := 2
/-- Error flag: shape fixed to the point-spread function (`aegean.py` line 69). -/
def FIXED2PSF : ℕ := 4
/-- Error flag: shape fixed circular (`aegean.py` line 70, never set). -/
def FIXEDCIRCULAR : ℕ := 8
/-- Error flag: no fit was attempted (`aegean.py` line 71). -/
def NOTFIT : ℕ := 16

/-- A pixel coordinate `(x, y)` as used by `aegean.py` (array indices). -/
structure Pix where
  x : ℕ
  y : ℕ
deriving DecidableEq

/-- A 2-d numpy array of values of type `α`: a shape together with a total
function giving the entry at each coordinate (entries outside the shape are
irrelevant junk, never consulted by the embedded code). -/
structure Grid (α : Type) where
  rows : ℕ
  cols : ℕ
  pix : Pix → α

/-- The IEEE test `v / r > c` where `v` may be `NaN` (`none`): any comparison
against `NaN` is false. -/
def snrGT (v : Option ℚ) (r c : ℚ) : Bool :=
  match v with
  | some f => if c < f / r then true else false
  | none => false

/-- The IEEE test `v / r ≥ c` where `v` may be `NaN` (`none`). -/
def snrGE (v : Option ℚ) (r c : ℚ) : Bool :=
  match v with
  | some f => if c ≤ f / r then true else false
  | none => false

/-- In-place update of one cell of a status array. -/
def updStatus (st : Pix → ℕ) (p : Pix) (v : ℕ) : Pix → ℕ :=
  fun q => if q = p then v else st q

/-- One candidate neighbour inside `explore` (`aegean.py` lines 280-302):
if the neighbour is not yet QUEUED and passes the flood cutoff it is appended
to the queue and marked QUEUED. -/
def exploreStep (data : Pix → Option ℚ) (rmsimg : Pix → ℚ) (cutoffratio : ℚ)
    (sq : (Pix → ℕ) × List Pix) (new : Pix) : (Pix → ℕ) × List Pix :=
  if sq.1 new &&& QUEUED = 0 ∧ snrGE (data new) (rmsimg new) cutoffratio then
    (updStatus sq.1 new (sq.1 new ||| QUEUED), sq.2 ++ [new])
  else sq

/-- The four neighbour candidates of `explore`, in source order, with the
bounds guards of `aegean.py` lines 280-299 (`bounds` is
`(shape0 - 1, shape1 - 1)`). -/
def neighbourList (bounds : Pix) (p : Pix) : List Pix :=
  (if 0 < p.x then [⟨p.x - 1, p.y⟩] else []) ++
  (if p.x < bounds.x then [⟨p.x + 1, p.y⟩] else []) ++
  (if 0 < p.y then [⟨p.x, p.y - 1⟩] else []) ++
  (if p.y < bounds.y then [⟨p.x, p.y + 1⟩] else [])

/-- `explore` (`aegean.py` lines 263-302): queue every acceptable neighbour
of `pixel`.  (The negative-coordinate check at the top of the source is
unreachable with `ℕ` coordinates and in-bounds guards.) -/
def explore (data : Pix → Option ℚ) (rmsimg : Pix → ℚ) (st : Pix → ℕ)
    (queue : List Pix) (bounds : Pix) (cutoffratio : ℚ) (p : Pix) :
    (Pix → ℕ) × List Pix :=
  (neighbourList bounds p).foldl (exploreStep data rmsimg cutoffratio) (st, queue)

/-- The `for pixel in queue` loop of `flood` (`aegean.py` lines 320-327).
Python iterates over the list by index while `explore` appends to its end,
i.e. FIFO worklist processing: here the not-yet-visited suffix of the queue
is the worklist, `explore` appends to its end, and processed pixels are
dropped from the front.  `fuel` bounds the number of iterations (each pixel
is enqueued at most once thanks to the QUEUED bit, so `rows*cols` iterations
always suffice; every theorem below holds for arbitrary fuel). -/
def floodLoop (data : Pix → Option ℚ) (rmsimg : Pix → ℚ) (bounds : Pix)
    (cutoffratio : ℚ) :
    ℕ → (Pix → ℕ) → List Pix → List Pix → (Pix → ℕ) × List Pix
  | 0, st, _, blob => (st, blob)
  | _ + 1, st, [], blob => (st, blob)
  | fuel + 1, st, p :: todo, blob =>
    if st p &&& VISITED ≠ 0 then
      floodLoop data rmsimg bounds cutoffratio fuel st todo blob
    else
      let st1 := updStatus st p (st p ||| VISITED)
      let sq := explore data rmsimg st1 todo bounds cutoffratio p
      floodLoop data rmsimg bounds cutoffratio fuel sq.1 sq.2 (blob ++ [p])

/-- `flood` (`aegean.py` lines 304-329): collect the blob contiguous to
`peak`, or return `[]` if the peak was already VISITED. -/
def flood (data : Pix → Option ℚ) (rmsimg : Pix → ℚ) (st : Pix → ℕ)
    (bounds : Pix) (peak : Pix) (cutoffratio : ℚ) : (Pix → ℕ) × List Pix :=
  if st peak &&& VISITED ≠ 0 then (st, [])
  else
    floodLoop data rmsimg bounds cutoffratio ((bounds.x + 1) * (bounds.y + 1))
      (updStatus st peak (st peak ||| QUEUED)) [peak] []

/-- All coordinates of a `rows × cols` array in row-major (`np.where`) order. -/
def coordsRowMajor (rows cols : ℕ) : List Pix :=
  ((List.range rows).map (fun i => (List.range cols).map (fun j => Pix.mk i j))).flatten

/-- A `(flux, x, y)` tuple of the `peaks` list of `gen_flood_wrap`. -/
structure PeakT where
  flux : ℚ
  px : ℕ
  py : ℕ

/-- The `peaks` list of `gen_flood_wrap` (`aegean.py` lines 353-354): every
in-range pixel with `data/rms > innerclip`, tagged with its flux value. -/
def peaksOf (data : Grid (Option ℚ)) (rmsimg : Grid ℚ) (innerclip : ℚ) :
    List PeakT :=
  (coordsRowMajor data.rows data.cols).filterMap (fun p =>
    match data.pix p with
    | some v => if snrGT (some v) (rmsimg.pix p) innerclip then some ⟨v, p.x, p.y⟩ else none
    | none => none)

/-- Strict descending lexicographic comparison on `(flux, x, y)` tuples, the
order produced by Python's `peaks.sort(reverse=True)` (all tuples are distinct
because coordinates are). -/
def tupGT (a b : PeakT) : Prop :=
  b.flux < a.flux ∨ (b.flux = a.flux ∧ (b.px < a.px ∨ (b.px = a.px ∧ b.py < a.py)))

instance (a b : PeakT) : Decidable (tupGT a b) := by
  unfold tupGT; infer_instance

/-- Insert into a descending-sorted list (used to realize `sort(reverse=True)`). -/
def insDesc (a : PeakT) : List PeakT → List PeakT
  | [] => [a]
  | b :: bs => if tupGT a b then a :: b :: bs else b :: insDesc a bs

/-- Sort a peak list into descending `(flux, x, y)` order. -/
def sortDesc : List PeakT → List PeakT
  | [] => []
  | a :: as => insDesc a (sortDesc as)

/-- `list2map` (`aegean.py` lines 98-116): turn a pixel list into a dense
bounding-box sub-grid, member pixels keeping their value and non-member
pixels set to `NaN`; returns the box bounds as well.  The source crashes on
an empty pixel list (`min` of an empty sequence); it is only ever called with
a nonempty blob. -/
def list2map (g : Grid (Option ℚ)) (pixlist : List Pix) :
    Grid (Option ℚ) × ℕ × ℕ × ℕ × ℕ :=
  match pixlist with
  | [] => (⟨0, 0, fun _ => none⟩, 0, 0, 0, 0)
  | q :: qs =>
    let xmin := qs.foldl (fun m p => min m p.x) q.x
    let xmax := qs.foldl (fun m p => max m p.x) q.x
    let ymin := qs.foldl (fun m p => min m p.y) q.y
    let ymax := qs.foldl (fun m p => max m p.y) q.y
    (⟨xmax - xmin + 1, ymax - ymin + 1,
      fun p => if Pix.mk (p.x + xmin) (p.y + ymin) ∈ pixlist then g.pix ⟨p.x + xmin, p.y + ymin⟩ else none⟩,
     xmin, xmax, ymin, ymax)

/-- The segmentation loop of `gen_flood_wrap` (`aegean.py` lines 366-376),
at the level of raw pixel blobs: flood from each sorted peak in turn,
threading the status array, and keep the blobs with at least one pixel. -/
def genLoop (data : Pix → Option ℚ) (rmsimg : Pix → ℚ) (bounds : Pix)
    (outerclip : ℚ) : List Pix → (Pix → ℕ) → List (List Pix)
  | [], _ => []
  | pk :: rest, st =>
    let r := flood data rmsimg st bounds pk outerclip
    if 1 ≤ r.2.length then
      r.2 :: genLoop data rmsimg bounds outerclip rest r.1
    else genLoop data rmsimg bounds outerclip rest r.1

/-- The initial status array of `gen_flood_wrap` (`aegean.py` line 349):
PEAKED wherever `data/rms > innerclip`. -/
def status0 (data : Grid (Option ℚ)) (rmsimg : Grid ℚ) (innerclip : ℚ) :
    Pix → ℕ :=
  fun p => if snrGT (data.pix p) (rmsimg.pix p) innerclip then PEAKED else 0

/-- The list of blobs produced by one whole `gen_flood_wrap` pass
(`aegean.py` lines 331-376), before each blob is densified by `list2map`.
`outerclip = none` defaults to `innerclip` as in the source.  All call sites
in the repository pass `expand=False`; the `expand=True` branch calls
`sys.exit` and is not modelled. -/
def gen_flood_blobs (data : Grid (Option ℚ)) (rmsimg : Grid ℚ)
    (innerclip : ℚ) (outerclip : Option ℚ) : List (List Pix) :=
  let oc := outerclip.getD innerclip
  let peaks := (sortDesc (peaksOf data rmsimg innerclip)).map
    (fun t => Pix.mk t.px t.py)
  genLoop data.pix rmsimg.pix ⟨data.rows - 1, data.cols - 1⟩ oc peaks
    (status0 data rmsimg innerclip)

/-- `gen_flood_wrap` (`aegean.py` lines 331-376): each kept blob is converted
by `list2map` into a dense island with its bounding box. -/
def gen_flood_wrap (data : Grid (Option ℚ)) (rmsimg : Grid ℚ)
    (innerclip : ℚ) (outerclip : Option ℚ) :
    List (Grid (Option ℚ) × ℕ × ℕ × ℕ × ℕ) :=
  (gen_flood_blobs data rmsimg innerclip outerclip).map (list2map data)

/-- The island admission filter of `find_sources_in_image` (`aegean.py`
lines 785-788): `if len(i) <= 1: continue`, where `i` is the island's dense
pixel array, so `len(i)` is its number of BOUNDING-BOX ROWS (`shape[0]`),
not its number of pixels. -/
def processedIslands (data : Grid (Option ℚ)) (rmsimg : Grid ℚ)
    (innerclip outerclip : ℚ) : List (Grid (Option ℚ) × ℕ × ℕ × ℕ × ℕ) :=
  (gen_flood_wrap data rmsimg innerclip (some outerclip)).filter
    (fun t => !(t.1.rows ≤ 1))

/-! ### Invariants of the flood-fill segmenter -/

/-- The pixel carries the VISITED bit. -/
def visited (st : Pix → ℕ) (p : Pix) : Prop := st p &&& VISITED ≠ 0

theorem and_visited_or_queued (s : ℕ) : (s ||| QUEUED) &&& VISITED = s &&& VISITED := by
  show (s ||| 2) &&& 4 = s &&& 4
  have h4 : (4 : ℕ) = 2 ^ 2 := rfl
  have h2 : Nat.testBit 2 2 = false := by decide
  rw [h4, Nat.and_two_pow, Nat.and_two_pow, Nat.testBit_or, h2, Bool.or_false]

theorem and_visited_or_visited (s : ℕ) : (s ||| VISITED) &&& VISITED ≠ 0 := by
  show (s ||| 4) &&& 4 ≠ 0
  have key := Nat.and_two_pow (s ||| 4) 2
  have h2 : Nat.testBit 4 2 = true := by decide
  norm_num at key
  rw [key, h2, Bool.or_true]
  simp

theorem visited_updStatus_queued (st : Pix → ℕ) (q p : Pix) :
    visited (updStatus st q (st q ||| QUEUED)) p ↔ visited st p := by
  unfold visited updStatus
  by_cases h : p = q
  · subst h; simp [and_visited_or_queued]
  · simp [h]

theorem visited_updStatus_visited (st : Pix → ℕ) (q p : Pix) :
    visited (updStatus st q (st q ||| VISITED)) p ↔ (p = q ∨ visited st p) := by
  unfold visited updStatus
  by_cases h : p = q
  · subst h; simp [and_visited_or_visited]
  · simp [h]

theorem exploreStep_visited (d : Pix → Option ℚ) (r : Pix → ℚ) (c : ℚ)
    (sq : (Pix → ℕ) × List Pix) (n : Pix) (p : Pix) :
    visited (exploreStep d r c sq n).1 p ↔ visited sq.1 p := by
  unfold exploreStep
  split
  · exact visited_updStatus_queued sq.1 n p
  · exact Iff.rfl

theorem exploreStep_mem (d : Pix → Option ℚ) (r : Pix → ℚ) (c : ℚ)
    (sq : (Pix → ℕ) × List Pix) (n : Pix) (q : Pix) :
    q ∈ (exploreStep d r c sq n).2 → q ∈ sq.2 ∨ snrGE (d q) (r q) c = true := by
  unfold exploreStep
  split
  · rename_i h
    intro hq
    rcases List.mem_append.mp hq with h1 | h1
    · exact Or.inl h1
    · rcases List.mem_singleton.mp h1 with rfl
      exact Or.inr h.2
  · exact Or.inl

theorem foldl_exploreStep_visited (d : Pix → Option ℚ) (r : Pix → ℚ) (c : ℚ)
    (p : Pix) : ∀ (ns : List Pix) (sq : (Pix → ℕ) × List Pix),
    visited ((ns.foldl (exploreStep d r c) sq).1) p ↔ visited sq.1 p
  | [], _ => Iff.rfl
  | n :: ns, sq =>
    (foldl_exploreStep_visited d r c p ns (exploreStep d r c sq n)).trans
      (exploreStep_visited d r c sq n p)

theorem foldl_exploreStep_mem (d : Pix → Option ℚ) (r : Pix → ℚ) (c : ℚ)
    (q : Pix) : ∀ (ns : List Pix) (sq : (Pix → ℕ) × List Pix),
    q ∈ (ns.foldl (exploreStep d r c) sq).2 →
      q ∈ sq.2 ∨ snrGE (d q) (r q) c = true
  | [], _, h => Or.inl h
  | n :: ns, sq, h => by
    rcases foldl_exploreStep_mem d r c q ns (exploreStep d r c sq n) h with h1 | h1
    · exact exploreStep_mem d r c sq n q h1
    · exact Or.inr h1

theorem explore_visited (d : Pix → Option ℚ) (r : Pix → ℚ) (st : Pix → ℕ)
    (queue : List Pix) (bnd : Pix) (c : ℚ) (x p : Pix) :
    visited (explore d r st queue bnd c x).1 p ↔ visited st p :=
  foldl_exploreStep_visited d r c p (neighbourList bnd x) (st, queue)

theorem explore_mem (d : Pix → Option ℚ) (r : Pix → ℚ) (st : Pix → ℕ)
    (queue : List Pix) (bnd : Pix) (c : ℚ) (x q : Pix) :
    q ∈ (explore d r st queue bnd c x).2 →
      q ∈ queue ∨ snrGE (d q) (r q) c = true :=
  foldl_exploreStep_mem d r c q (neighbourList bnd x) (st, queue)

theorem floodLoop_mono (d : Pix → Option ℚ) (r : Pix → ℚ) (bnd : Pix) (c : ℚ)
    (p : Pix) : ∀ (fuel : ℕ) (st : Pix → ℕ) (todo blob : List Pix),
    visited st p → visited (floodLoop d r bnd c fuel st todo blob).1 p := by
  intro fuel
  induction fuel with
  | zero => intro st todo blob h; simpa [floodLoop] using h
  | succ n ih =>
    intro st todo blob h
    cases todo with
    | nil => simpa [floodLoop] using h
    | cons q todo =>
      by_cases hv : st q &&& VISITED ≠ 0
      · rw [floodLoop, if_pos hv]; exact ih _ _ _ h
      · rw [floodLoop, if_neg hv]
        apply ih
        rw [explore_visited, visited_updStatus_visited]
        exact Or.inr h

theorem floodLoop_blob (d : Pix → Option ℚ) (r : Pix → ℚ) (bnd : Pix) (c : ℚ) :
    ∀ (fuel : ℕ) (st : Pix → ℕ) (todo blob : List Pix),
    ∃ Δ, (floodLoop d r bnd c fuel st todo blob).2 = blob ++ Δ ∧ Δ.Nodup ∧
      ∀ p ∈ Δ, ¬ visited st p ∧ visited (floodLoop d r bnd c fuel st todo blob).1 p := by
  intro fuel
  induction fuel with
  | zero =>
    intro st todo blob
    exact ⟨[], by simp [floodLoop]⟩
  | succ n ih =>
    intro st todo blob
    cases todo with
    | nil => exact ⟨[], by simp [floodLoop]⟩
    | cons q todo =>
      by_cases hv : st q &&& VISITED ≠ 0
      · rcases ih st todo blob with ⟨Δ, h1, h2, h3⟩
        refine ⟨Δ, ?_, h2, ?_⟩
        · rw [floodLoop, if_pos hv]; exact h1
        · rw [floodLoop, if_pos hv]; exact h3
      · set st1 := updStatus st q (st q ||| VISITED) with hst1
        set sq := explore d r st1 todo bnd c q with hsq
        rcases ih sq.1 sq.2 (blob ++ [q]) with ⟨Δ, h1, h2, h3⟩
        have hres1 : (floodLoop d r bnd c (n+1) st (q :: todo) blob).1 =
            (floodLoop d r bnd c n sq.1 sq.2 (blob ++ [q])).1 := by
          rw [floodLoop, if_neg hv]
        have hres2 : (floodLoop d r bnd c (n+1) st (q :: todo) blob).2 =
            (floodLoop d r bnd c n sq.1 sq.2 (blob ++ [q])).2 := by
          rw [floodLoop, if_neg hv]
        have hq1 : visited sq.1 q := by
          rw [hsq, explore_visited, hst1, visited_updStatus_visited]
          exact Or.inl rfl
        have hmono : ∀ p, visited st p → visited sq.1 p := by
          intro p hp
          rw [hsq, explore_visited, hst1, visited_updStatus_visited]
          exact Or.inr hp
        refine ⟨q :: Δ, ?_, ?_, ?_⟩
        · rw [hres2, h1]; simp
        · refine List.nodup_cons.mpr ⟨?_, h2⟩
          intro hqΔ
          exact (h3 q hqΔ).1 hq1
        · intro p hp
          rcases List.mem_cons.mp hp with heq | hp
          · rw [heq]
            refine ⟨hv, ?_⟩
            rw [hres1]
            exact floodLoop_mono d r bnd c q n sq.1 sq.2 (blob ++ [q]) hq1
          · refine ⟨fun hvs => (h3 p hp).1 (hmono p hvs), ?_⟩
            rw [hres1]
            exact (h3 p hp).2

theorem floodLoop_pred (d : Pix → Option ℚ) (r : Pix → ℚ) (bnd : Pix) (c : ℚ)
    (P : Pix → Prop) (hP : ∀ q, snrGE (d q) (r q) c = true → P q) :
    ∀ (fuel : ℕ) (st : Pix → ℕ) (todo blob : List Pix),
    (∀ p ∈ todo, P p) →
    ∀ p ∈ (floodLoop d r bnd c fuel st todo blob).2, p ∈ blob ∨ P p := by
  intro fuel
  induction fuel with
  | zero => intro st todo blob _ p hp; rw [floodLoop] at hp; exact Or.inl hp
  | succ n ih =>
    intro st todo blob htodo
    cases todo with
    | nil => intro p hp; rw [floodLoop] at hp; exact Or.inl hp
    | cons q todo =>
      by_cases hv : st q &&& VISITED ≠ 0
      · rw [floodLoop, if_pos hv]
        exact ih st todo blob (fun p hp => htodo p (List.mem_cons_of_mem q hp))
      · rw [floodLoop, if_neg hv]
        intro p hp
        have hq2 : ∀ x ∈ (explore d r (updStatus st q (st q ||| VISITED)) todo bnd c q).2, P x := by
          intro x hx
          rcases explore_mem d r _ todo bnd c q x hx with h1 | h1
          · exact htodo x (List.mem_cons_of_mem q h1)
          · exact hP x h1
        rcases ih _ _ (blob ++ [q]) hq2 p hp with h1 | h1
        · rcases List.mem_append.mp h1 with h2 | h2
          · exact Or.inl h2
          · rcases List.mem_singleton.mp h2 with rfl
            exact Or.inr (htodo p (List.mem_cons_self p _))
        · exact Or.inr h1

theorem flood_mono (d : Pix → Option ℚ) (r : Pix → ℚ) (st : Pix → ℕ)
    (bnd pk : Pix) (c : ℚ) (p : Pix) (h : visited st p) :
    visited (flood d r st bnd pk c).1 p := by
  unfold flood
  split
  · exact h
  · exact floodLoop_mono d r bnd c p _ _ _ _
      ((visited_updStatus_queued st pk p).mpr h)

theorem flood_blob (d : Pix → Option ℚ) (r : Pix → ℚ) (st : Pix → ℕ)
    (bnd pk : Pix) (c : ℚ) :
    (flood d r st bnd pk c).2.Nodup ∧
    ∀ p ∈ (flood d r st bnd pk c).2,
      ¬ visited st p ∧ visited (flood d r st bnd pk c).1 p := by
  unfold flood
  split
  · exact ⟨List.nodup_nil, by simp⟩
  · rcases floodLoop_blob d r bnd c ((bnd.x + 1) * (bnd.y + 1))
      (updStatus st pk (st pk ||| QUEUED)) [pk] [] with ⟨Δ, h1, h2, h3⟩
    rw [List.nil_append] at h1
    rw [h1]
    refine ⟨h2, ?_⟩
    intro p hp
    refine ⟨fun hvs => (h3 p hp).1 ((visited_updStatus_queued st pk p).mpr hvs), (h3 p hp).2⟩

theorem flood_snr (d : Pix → Option ℚ) (r : Pix → ℚ) (st : Pix → ℕ)
    (bnd pk : Pix) (c : ℚ) :
    ∀ p ∈ (flood d r st bnd pk c).2, p = pk ∨ snrGE (d p) (r p) c = true := by
  unfold flood
  split
  · simp
  · intro p hp
    have := floodLoop_pred d r bnd c (fun q => q = pk ∨ snrGE (d q) (r q) c = true)
      (fun q hq => Or.inr hq) ((bnd.x + 1) * (bnd.y + 1))
      (updStatus st pk (st pk ||| QUEUED)) [pk] []
      (by intro x hx; rcases List.mem_singleton.mp hx with rfl; exact Or.inl rfl)
      p hp
    rcases this with h1 | h1
    · exact absurd h1 (List.not_mem_nil p)
    · exact h1

theorem flood_head (d : Pix → Option ℚ) (r : Pix → ℚ) (st : Pix → ℕ)
    (bnd pk : Pix) (c : ℚ) (hne : (flood d r st bnd pk c).2 ≠ []) :
    ∃ rest, (flood d r st bnd pk c).2 = pk :: rest := by
  revert hne
  unfold flood
  split
  · intro hne; exact absurd rfl hne
  · rename_i hv
    intro _
    have hpos : ∃ m, (bnd.x + 1) * (bnd.y + 1) = m + 1 := by
      refine ⟨(bnd.x + 1) * (bnd.y + 1) - 1, ?_⟩
      have : 1 ≤ (bnd.x + 1) * (bnd.y + 1) := Nat.one_le_iff_ne_zero.mpr (by positivity)
      omega
    rcases hpos with ⟨m, hm⟩
    rw [hm]
    have hv0 : ¬ (updStatus st pk (st pk ||| QUEUED)) pk &&& VISITED ≠ 0 := by
      intro hcon
      exact hv ((visited_updStatus_queued st pk pk).mp hcon)
    rw [floodLoop, if_neg hv0]
    rcases floodLoop_blob d r bnd c m _ _ ([] ++ [pk]) with ⟨Δ, h1, _, _⟩
    exact ⟨Δ, by simpa using h1⟩

theorem genLoop_spec (d : Pix → Option ℚ) (r : Pix → ℚ) (bnd : Pix) (oc : ℚ) :
    ∀ (peaks : List Pix) (st : Pix → ℕ),
    (∀ b ∈ genLoop d r bnd oc peaks st, b.Nodup) ∧
    List.Pairwise List.Disjoint (genLoop d r bnd oc peaks st) ∧
    (∀ b ∈ genLoop d r bnd oc peaks st, ∀ p ∈ b, ¬ visited st p) := by
  intro peaks
  induction peaks with
  | nil => intro st; simp [genLoop]
  | cons pk rest ih =>
    intro st
    rcases ih (flood d r st bnd pk oc).1 with ⟨ih1, ih2, ih3⟩
    rcases flood_blob d r st bnd pk oc with ⟨hnd, hfr⟩
    have hnotvis : ∀ b ∈ genLoop d r bnd oc rest (flood d r st bnd pk oc).1,
        ∀ p ∈ b, ¬ visited st p := by
      intro b hb p hp hvs
      exact ih3 b hb p hp (flood_mono d r st bnd pk oc p hvs)
    have hdisj : ∀ b ∈ genLoop d r bnd oc rest (flood d r st bnd pk oc).1,
        (flood d r st bnd pk oc).2.Disjoint b := by
      intro b hb p hpblob hpb
      exact ih3 b hb p hpb (hfr p hpblob).2
    rw [genLoop]
    split
    · refine ⟨?_, ?_, ?_⟩
      · intro b hb
        rcases List.mem_cons.mp hb with rfl | hb
        · exact hnd
        · exact ih1 b hb
      · exact List.pairwise_cons.mpr ⟨hdisj, ih2⟩
      · intro b hb p hp
        rcases List.mem_cons.mp hb with rfl | hb
        · exact (hfr p hp).1
        · exact hnotvis b hb p hp
    · exact ⟨ih1, ih2, hnotvis⟩

theorem genLoop_seed (d : Pix → Option ℚ) (r : Pix → ℚ) (bnd : Pix) (oc : ℚ)
    (Q : Pix → Prop) :
    ∀ (peaks : List Pix) (st : Pix → ℕ), (∀ pk ∈ peaks, Q pk) →
    ∀ b ∈ genLoop d r bnd oc peaks st,
      ∃ s rest, b = s :: rest ∧ Q s ∧
        ∀ p ∈ b, p = s ∨ snrGE (d p) (r p) oc = true := by
  intro peaks
  induction peaks with
  | nil => intro st _; simp [genLoop]
  | cons pk rest ih =>
    intro st hQ b hb
    rw [genLoop] at hb
    split at hb
    · rename_i hlen
      rcases List.mem_cons.mp hb with heq | hb
      · have hne : (flood d r st bnd pk oc).2 ≠ [] := by
          intro hcon
          rw [hcon] at hlen
          simp at hlen
        rcases flood_head d r st bnd pk oc hne with ⟨tl, htl⟩
        refine ⟨pk, tl, ?_, hQ pk (List.mem_cons_self pk rest), ?_⟩
        · rw [heq, htl]
        · rw [heq]
          exact flood_snr d r st bnd pk oc
      · exact ih _ (fun q hq => hQ q (List.mem_cons_of_mem pk hq)) b hb
    · exact ih _ (fun q hq => hQ q (List.mem_cons_of_mem pk hq)) b hb

theorem mem_insDesc (a x : PeakT) : ∀ (l : List PeakT), x ∈ insDesc a l ↔ x = a ∨ x ∈ l
  | [] => by simp [insDesc]
  | b :: bs => by
    unfold insDesc
    split
    · simp
    · rw [List.mem_cons, List.mem_cons, mem_insDesc a x bs]
      tauto

theorem mem_sortDesc (x : PeakT) : ∀ (l : List PeakT), x ∈ sortDesc l ↔ x ∈ l
  | [] => Iff.rfl
  | a :: as => by
    rw [sortDesc, mem_insDesc, mem_sortDesc x as, List.mem_cons]

theorem peaksOf_snr (data : Grid (Option ℚ)) (rmsimg : Grid ℚ) (innerclip : ℚ)
    (t : PeakT) (ht : t ∈ peaksOf data rmsimg innerclip) :
    snrGT (data.pix ⟨t.px, t.py⟩) (rmsimg.pix ⟨t.px, t.py⟩) innerclip = true := by
  rw [peaksOf, List.mem_filterMap] at ht
  rcases ht with ⟨p, _, hf⟩
  rcases hd : data.pix p with _ | v
  · rw [hd] at hf
    dsimp only at hf
    exact absurd hf (by simp)
  · rw [hd] at hf
    dsimp only at hf
    rcases hs : snrGT (some v) (rmsimg.pix p) innerclip with _ | _
    · rw [hs] at hf
      simp at hf
    · rw [hs] at hf
      simp only [if_true] at hf
      obtain rfl : t = ⟨v, p.x, p.y⟩ := (Option.some_injective _ hf).symm
      show snrGT (data.pix p) (rmsimg.pix p) innerclip = true
      rw [hd]
      exact hs

theorem snrGE_of_snrGT (v : Option ℚ) (r c1 c2 : ℚ) (h : snrGT v r c1 = true)
    (hc : c2 ≤ c1) : snrGE v r c2 = true := by
  rcases v with _ | f
  · exact absurd h (by simp [snrGT])
  · rw [snrGT] at h
    rw [snrGE]
    split at h
    · rename_i hlt
      rw [if_pos (le_of_lt (lt_of_le_of_lt hc hlt))]
    · exact absurd h (by simp)

/-- Claim C5: across one whole segmentation pass, every pixel enters at most
one blob at most once: every produced blob is duplicate-free, the produced
blobs are pairwise disjoint, and hence their concatenation has no repeated
pixel (a pixel is marked VISITED exactly when it is appended to a blob, and a
VISITED pixel is never reconsidered by a later flood fill). -/
theorem claim_C5_segmentation_disjoint (data : Grid (Option ℚ)) (rmsimg : Grid ℚ)
    (innerclip : ℚ) (outerclip : Option ℚ) :
    (∀ b ∈ gen_flood_blobs data rmsimg innerclip outerclip, b.Nodup) ∧
    List.Pairwise List.Disjoint (gen_flood_blobs data rmsimg innerclip outerclip) ∧
    (gen_flood_blobs data rmsimg innerclip outerclip).flatten.Nodup := by
  rcases genLoop_spec data.pix rmsimg.pix ⟨data.rows - 1, data.cols - 1⟩
    (outerclip.getD innerclip)
    ((sortDesc (peaksOf data rmsimg innerclip)).map (fun t => Pix.mk t.px t.py))
    (status0 data rmsimg innerclip) with ⟨h1, h2, _⟩
  exact ⟨h1, h2, List.nodup_flatten.mpr ⟨h1, h2⟩⟩

/-- Claim C6 (amended): every produced blob is grown from its first pixel,
the seed, which satisfies flux/noise > innerclip; every other member
satisfies flux/noise ≥ outerclip; consequently whenever outerclip ≤ innerclip
every member satisfies flux/noise ≥ outerclip.  (The seed itself is only
guaranteed to beat innerclip, not outerclip.) -/
theorem claim_C6_blob_snr_amended (data : Grid (Option ℚ)) (rmsimg : Grid ℚ)
    (innerclip : ℚ) (outerclip : Option ℚ) :
    ∀ b ∈ gen_flood_blobs data rmsimg innerclip outerclip,
      ∃ s rest, b = s :: rest ∧
        snrGT (data.pix s) (rmsimg.pix s) innerclip = true ∧
        (∀ p ∈ b, p ≠ s →
          snrGE (data.pix p) (rmsimg.pix p) (outerclip.getD innerclip) = true) ∧
        (outerclip.getD innerclip ≤ innerclip →
          ∀ p ∈ b, snrGE (data.pix p) (rmsimg.pix p) (outerclip.getD innerclip) = true) := by
  intro b hb
  have hq : ∀ pk ∈ (sortDesc (peaksOf data rmsimg innerclip)).map
      (fun t => Pix.mk t.px t.py),
      snrGT (data.pix pk) (rmsimg.pix pk) innerclip = true := by
    intro pk hpk
    rcases List.mem_map.mp hpk with ⟨t, ht, rfl⟩
    exact peaksOf_snr data rmsimg innerclip t ((mem_sortDesc t _).mp ht)
  rcases genLoop_seed data.pix rmsimg.pix ⟨data.rows - 1, data.cols - 1⟩
      (outerclip.getD innerclip)
      (fun pk => snrGT (data.pix pk) (rmsimg.pix pk) innerclip = true)
      _ (status0 data rmsimg innerclip) hq b hb with ⟨s, rest, hbs, hseed, hmem⟩
  refine ⟨s, rest, hbs, hseed, ?_, ?_⟩
  · intro p hp hps
    rcases hmem p hp with heq | h1
    · exact absurd heq hps
    · exact h1
  · intro hoc p hp
    rcases hmem p hp with heq | h1
    · rw [heq]
      exact snrGE_of_snrGT _ _ _ _ hseed hoc
    · exact h1

/-- A 1-pixel image whose sole pixel has flux 3 over noise 1. -/
def dataC6 : Grid (Option ℚ) := ⟨1, 1, fun _ => some 3⟩
/-- Constant unit noise for `dataC6`. -/
def rmsC6 : Grid ℚ := ⟨1, 1, fun _ => 1⟩

/-- Claim C6 counterexample: with seed threshold innerclip = 2 and grow
threshold outerclip = 5, the segmenter produces the blob `[(0,0)]`, yet its
member pixel has flux/noise = 3, which fails `flux/noise ≥ outerclip`. -/
theorem claim_C6_counterexample :
    gen_flood_blobs dataC6 rmsC6 2 (some 5) = [[⟨0, 0⟩]] ∧
    snrGE (dataC6.pix ⟨0, 0⟩) (rmsC6.pix ⟨0, 0⟩) 5 = false := by
  constructor
  · norm_num +decide [gen_flood_blobs, dataC6, rmsC6, peaksOf, coordsRowMajor,
      List.range_succ, snrGT, sortDesc, insDesc, tupGT, status0, genLoop, flood,
      floodLoop, explore, neighbourList, exploreStep, snrGE, updStatus, PEAKED,
      QUEUED, VISITED]
  · norm_num [dataC6, rmsC6, snrGE]

/-- Claim C6 witness: the amended statement evaluated on `dataC6` with
innerclip = 2 and outerclip = 1. -/
theorem claim_C6_amended_witness :
    [Pix.mk 0 0] ∈ gen_flood_blobs dataC6 rmsC6 2 (some 1) ∧
    (∃ s rest, [Pix.mk 0 0] = s :: rest ∧
      snrGT (dataC6.pix s) (rmsC6.pix s) 2 = true ∧
      (∀ p ∈ [Pix.mk 0 0], p ≠ s →
        snrGE (dataC6.pix p) (rmsC6.pix p) ((some (1 : ℚ)).getD 2) = true) ∧
      ((some (1 : ℚ)).getD 2 ≤ 2 →
        ∀ p ∈ [Pix.mk 0 0], snrGE (dataC6.pix p) (rmsC6.pix p) ((some (1 : ℚ)).getD 2) = true)) := by
  have hgen : gen_flood_blobs dataC6 rmsC6 2 (some 1) = [[⟨0, 0⟩]] := by
    norm_num +decide [gen_flood_blobs, dataC6, rmsC6, peaksOf, coordsRowMajor,
      List.range_succ, snrGT, sortDesc, insDesc, tupGT, status0, genLoop, flood,
      floodLoop, explore, neighbourList, exploreStep, snrGE, updStatus, PEAKED,
      QUEUED, VISITED]
  have hmem : [Pix.mk 0 0] ∈ gen_flood_blobs dataC6 rmsC6 2 (some 1) := by
    rw [hgen]
    exact List.mem_singleton.mpr rfl
  exact ⟨hmem, claim_C6_blob_snr_amended dataC6 rmsC6 2 (some 1) _ hmem⟩

/-- A 2×2 image with a bright two-pixel horizontal strip in its top row. -/
def dataC4 : Grid (Option ℚ) :=
  ⟨2, 2, fun p => if p = ⟨0, 0⟩ then some 10 else if p = ⟨0, 1⟩ then some 9 else some (-1)⟩
/-- Constant unit noise for `dataC4`. -/
def rmsC4 : Grid ℚ := ⟨2, 2, fun _ => 1⟩

/-- Claim C4 (code bug witness): on `dataC4` the segmenter produces exactly
one blob of two pixels, its dense island is a 1×2 box, and
`find_sources_in_image` nevertheless discards it, because the admission
filter `len(i) <= 1` measures bounding-box rows instead of pixels. -/
theorem claim_C4_two_pixel_blob_discarded :
    gen_flood_blobs dataC4 rmsC4 5 (some 4) = [[⟨0, 0⟩, ⟨0, 1⟩]] ∧
    (gen_flood_wrap dataC4 rmsC4 5 (some 4)).map (fun t => (t.1.rows, t.1.cols)) = [(1, 2)] ∧
    (processedIslands dataC4 rmsC4 5 4).length = 0 := by
  have hgen : gen_flood_blobs dataC4 rmsC4 5 (some 4) = [[⟨0, 0⟩, ⟨0, 1⟩]] := by
    norm_num +decide [gen_flood_blobs, dataC4, rmsC4, peaksOf, coordsRowMajor,
      List.range_succ, snrGT, sortDesc, insDesc, tupGT, status0, genLoop, flood,
      floodLoop, explore, neighbourList, exploreStep, snrGE, updStatus, PEAKED,
      QUEUED, VISITED]
  have hwrap : (gen_flood_wrap dataC4 rmsC4 5 (some 4)).map
      (fun t => (t.1.rows, t.1.cols)) = [(1, 2)] := by
    rw [gen_flood_wrap, hgen]
    norm_num [list2map]
  refine ⟨hgen, hwrap, ?_⟩
  rw [processedIslands, gen_flood_wrap, hgen]
  norm_num [list2map]

/-! ### multi_gauss post-fit canonicalization -/

open Real

/-- Python 2 `int()` applied to a float: truncation toward zero. -/
noncomputable def pyint (x : ℝ) : ℤ := if 0 ≤ x then ⌊x⌋ else ⌈x⌉

/-- In-place update of one slot of a parameter vector (`mp.params[k] = x`). -/
def updV (v : ℕ → ℝ) (i : ℕ) (x : ℝ) : ℕ → ℝ := fun j => if j = i then x else v j

/-- The axis-swap step of `multi_gauss` (`aegean.py` lines 590-600): if the
major-axis slot is below the minor-axis slot, swap the two (and the matching
error slots when the error vector exists) and compensate the angle by −π/2. -/
noncomputable def canonSwap (pp : (ℕ → ℝ) × Option (ℕ → ℝ)) (i : ℕ) :
    (ℕ → ℝ) × Option (ℕ → ℝ) :=
  if pp.1 (i * 6 + 3) < pp.1 (i * 6 + 4) then
    (updV (updV (updV pp.1 (i * 6 + 4) (pp.1 (i * 6 + 3))) (i * 6 + 3) (pp.1 (i * 6 + 4)))
      (i * 6 + 5) (pp.1 (i * 6 + 5) - π / 2),
     pp.2.map (fun e => updV (updV e (i * 6 + 4) (e (i * 6 + 3))) (i * 6 + 3) (e (i * 6 + 4))))
  else pp

/-- The angle reduction of `multi_gauss` line 602:
`mp.params[i*6+5] -= int(mp.params[i*6+5]/(2*np.pi)) * 2*np.pi`. -/
noncomputable def canonWrap (p : ℕ → ℝ) (i : ℕ) : ℕ → ℝ :=
  updV p (i * 6 + 5) (p (i * 6 + 5) - pyint (p (i * 6 + 5) / (2 * π)) * (2 * π))

/-- The final angle fold of `multi_gauss` lines 604-605: subtract π once when
the angle exceeds π (note: π, not 2π). -/
noncomputable def canonFold (p : ℕ → ℝ) (i : ℕ) : ℕ → ℝ :=
  if p (i * 6 + 5) > π then updV p (i * 6 + 5) (p (i * 6 + 5) - π) else p

/-- One iteration of the post-fit canonicalization loop of `multi_gauss`
(`aegean.py` lines 587-605) for component `i`: rotate the angle by +π/2, do
the axis swap, reduce the angle by the truncated multiple of 2π, then fold. -/
noncomputable def canonStep (pp : (ℕ → ℝ) × Option (ℕ → ℝ)) (i : ℕ) :
    (ℕ → ℝ) × Option (ℕ → ℝ) :=
  ((canonFold (canonWrap (canonSwap (updV pp.1 (i * 6 + 5) (pp.1 (i * 6 + 5) + π / 2), pp.2) i).1 i) i),
   (canonSwap (updV pp.1 (i * 6 + 5) (pp.1 (i * 6 + 5) + π / 2), pp.2) i).2)

/-- The whole post-fit canonicalization of `multi_gauss` (`aegean.py` lines
587-605): the loop body applied for `i` in `range(len(mp.params)/6)`.  The
fitted parameter vector is modelled as a total function `ℕ → ℝ` with `n` the
number of components (`len(mp.params)/6` in the source). -/
noncomputable def multi_gauss_canon (params : ℕ → ℝ) (perror : Option (ℕ → ℝ))
    (n : ℕ) : (ℕ → ℝ) × Option (ℕ → ℝ) :=
  (List.range n).foldl canonStep (params, perror)

theorem canonSwap_apply_ne (pp : (ℕ → ℝ) × Option (ℕ → ℝ)) (i j : ℕ)
    (h3 : j ≠ i * 6 + 3) (h4 : j ≠ i * 6 + 4) (h5 : j ≠ i * 6 + 5) :
    (canonSwap pp i).1 j = pp.1 j := by
  unfold canonSwap
  split
  · simp [updV, h3, h4, h5]
  · rfl

theorem canonWrap_apply_ne (p : ℕ → ℝ) (i j : ℕ) (h5 : j ≠ i * 6 + 5) :
    canonWrap p i j = p j := by
  simp [canonWrap, updV, h5]

theorem canonFold_apply_ne (p : ℕ → ℝ) (i j : ℕ) (h5 : j ≠ i * 6 + 5) :
    canonFold p i j = p j := by
  unfold canonFold
  split
  · simp [updV, h5]
  · rfl

theorem canonStep_apply_ne (pp : (ℕ → ℝ) × Option (ℕ → ℝ)) (i j : ℕ)
    (h3 : j ≠ i * 6 + 3) (h4 : j ≠ i * 6 + 4) (h5 : j ≠ i * 6 + 5) :
    (canonStep pp i).1 j = pp.1 j := by
  unfold canonStep
  dsimp only
  rw [canonFold_apply_ne _ _ _ h5, canonWrap_apply_ne _ _ _ h5,
    canonSwap_apply_ne _ _ _ h3 h4 h5]
  simp [updV, h5]

theorem canonSwap_majmin (pp : (ℕ → ℝ) × Option (ℕ → ℝ)) (i : ℕ) :
    (canonSwap pp i).1 (i * 6 + 4) ≤ (canonSwap pp i).1 (i * 6 + 3) := by
  have h34 : i * 6 + 3 ≠ i * 6 + 4 := by omega
  have h54 : i * 6 + 4 ≠ i * 6 + 5 := by omega
  have h53 : i * 6 + 3 ≠ i * 6 + 5 := by omega
  unfold canonSwap
  split
  · rename_i hlt
    simp only [updV, if_neg h54, if_neg h53, if_pos rfl, if_neg (Ne.symm h34)]
    exact le_of_lt hlt
  · rename_i hge
    push_neg at hge
    exact hge

theorem canonStep_majmin (pp : (ℕ → ℝ) × Option (ℕ → ℝ)) (i : ℕ) :
    (canonStep pp i).1 (i * 6 + 4) ≤ (canonStep pp i).1 (i * 6 + 3) := by
  have h45 : i * 6 + 4 ≠ i * 6 + 5 := by omega
  have h35 : i * 6 + 3 ≠ i * 6 + 5 := by omega
  unfold canonStep
  dsimp only
  rw [canonFold_apply_ne _ _ _ h45, canonWrap_apply_ne _ _ _ h45,
    canonFold_apply_ne _ _ _ h35, canonWrap_apply_ne _ _ _ h35]
  exact canonSwap_majmin _ i

theorem sub_pyint_mul_range (v : ℝ) :
    -(2 * π) < v - pyint (v / (2 * π)) * (2 * π) ∧
    v - pyint (v / (2 * π)) * (2 * π) < 2 * π := by
  have h2pi : (0:ℝ) < 2 * π := by positivity
  set x : ℝ := v / (2 * π) with hx
  have hv : v = x * (2 * π) := by
    rw [hx]
    field_simp
  have hkey : v - pyint x * (2 * π) = (x - pyint x) * (2 * π) := by
    rw [hv]; ring
  rw [hkey]
  have hbound : -1 < x - (pyint x : ℝ) ∧ x - (pyint x : ℝ) < 1 := by
    unfold pyint
    split
    · constructor
      · have h1 := Int.floor_le x
        linarith
      · have h1 := Int.lt_floor_add_one x
        linarith
    · constructor
      · have h1 := Int.ceil_lt_add_one x
        linarith
      · have h1 := Int.le_ceil x
        linarith
  constructor
  · have h2 := mul_lt_mul_of_pos_right hbound.1 h2pi
    linarith
  · have h2 := mul_lt_mul_of_pos_right hbound.2 h2pi
    linarith

theorem canonFold_angle (q : ℕ → ℝ) (i : ℕ) (hlo : -(2 * π) < q (i * 6 + 5))
    (hhi : q (i * 6 + 5) < 2 * π) :
    -(2 * π) < canonFold q i (i * 6 + 5) ∧ canonFold q i (i * 6 + 5) ≤ π := by
  unfold canonFold
  split
  · rename_i hgt
    simp only [updV, if_pos rfl, if_true]
    have hpos := pi_pos
    constructor
    · linarith
    · linarith
  · rename_i hle
    push_neg at hle
    exact ⟨hlo, hle⟩

theorem canonWrap_apply_self (p : ℕ → ℝ) (i : ℕ) :
    canonWrap p i (i * 6 + 5) =
      p (i * 6 + 5) - pyint (p (i * 6 + 5) / (2 * π)) * (2 * π) := by
  simp [canonWrap, updV]

theorem canonStep_angle (pp : (ℕ → ℝ) × Option (ℕ → ℝ)) (i : ℕ) :
    -(2 * π) < (canonStep pp i).1 (i * 6 + 5) ∧
    (canonStep pp i).1 (i * 6 + 5) ≤ π := by
  unfold canonStep
  dsimp only
  rcases sub_pyint_mul_range
    ((canonSwap (updV pp.1 (i * 6 + 5) (pp.1 (i * 6 + 5) + π / 2), pp.2) i).1 (i * 6 + 5)) with
    ⟨hlo, hhi⟩
  apply canonFold_angle
  · rw [canonWrap_apply_self]
    exact hlo
  · rw [canonWrap_apply_self]
    exact hhi

theorem multi_gauss_canon_succ (params : ℕ → ℝ) (perror : Option (ℕ → ℝ)) (n : ℕ) :
    multi_gauss_canon params perror (n + 1) =
      canonStep (multi_gauss_canon params perror n) n := by
  unfold multi_gauss_canon
  rw [List.range_succ, List.foldl_append]
  rfl

/-- Claim C3 (amended): after the post-fit canonicalization of `multi_gauss`,
every component's stored major-axis value (slot 3) is at least its minor-axis
value (slot 4), and its stored position angle (slot 5) lies in (−2π, π] —
NOT in (−π, π] as the original claim states: the final fold subtracts π only
from angles above π, leaving negative angles as low as just above −2π. -/
theorem claim_C3_canon_amended (params : ℕ → ℝ) (perror : Option (ℕ → ℝ))
    (n : ℕ) : ∀ i < n,
    (multi_gauss_canon params perror n).1 (i * 6 + 4) ≤
      (multi_gauss_canon params perror n).1 (i * 6 + 3) ∧
    -(2 * π) < (multi_gauss_canon params perror n).1 (i * 6 + 5) ∧
    (multi_gauss_canon params perror n).1 (i * 6 + 5) ≤ π := by
  induction n with
  | zero => intro i hi; exact absurd hi (Nat.not_lt_zero i)
  | succ m ih =>
    intro i hi
    rw [multi_gauss_canon_succ]
    rcases Nat.lt_succ_iff_lt_or_eq.mp hi with hlt | heq
    · rcases ih i hlt with ⟨ha, hb, hc⟩
      refine ⟨?_, ?_⟩
      · rw [canonStep_apply_ne _ m (i * 6 + 4) (by omega) (by omega) (by omega),
          canonStep_apply_ne _ m (i * 6 + 3) (by omega) (by omega) (by omega)]
        exact ha
      · rw [canonStep_apply_ne _ m (i * 6 + 5) (by omega) (by omega) (by omega)]
        exact ⟨hb, hc⟩
    · subst heq
      exact ⟨canonStep_majmin _ i, canonStep_angle _ i⟩

/-- Claim C3 witness: the amended statement applied to the zero parameter
vector with one component. -/
theorem claim_C3_amended_witness :
    (0 : ℕ) < 1 ∧
    ((multi_gauss_canon (fun _ => (0 : ℝ)) none 1).1 (0 * 6 + 4) ≤
      (multi_gauss_canon (fun _ => (0 : ℝ)) none 1).1 (0 * 6 + 3) ∧
    -(2 * π) < (multi_gauss_canon (fun _ => (0 : ℝ)) none 1).1 (0 * 6 + 5) ∧
    (multi_gauss_canon (fun _ => (0 : ℝ)) none 1).1 (0 * 6 + 5) ≤ π) :=
  ⟨Nat.zero_lt_one, claim_C3_canon_amended (fun _ => 0) none 1 0 Nat.zero_lt_one⟩

/-- A fitted single-component parameter vector: amplitude/positions 0,
major 2, minor 1, fitted position angle −2π (the fitter leaves the angle
unbounded: its `limited` flags are `[False,False]`). -/
noncomputable def paramsC3 : ℕ → ℝ := fun k =>
  if k = 3 then 2 else if k = 4 then 1 else if k = 5 then -(2 * π) else 0

/-- Claim C3 counterexample: on `paramsC3` the canonicalized position angle
is −3π/2, which does NOT lie in (−π, π]. -/
theorem claim_C3_counterexample :
    (multi_gauss_canon paramsC3 none 1).1 (0 * 6 + 5) = -(3 * π) / 2 ∧
    ¬ (-π < (multi_gauss_canon paramsC3 none 1).1 (0 * 6 + 5)) := by
  have hpos := pi_pos
  have h0 : multi_gauss_canon paramsC3 none 1 = canonStep (paramsC3, none) 0 := by
    rw [multi_gauss_canon]
    norm_num [List.range_succ]
  have hcond : ¬ ((updV paramsC3 5 (paramsC3 5 + π / 2)) 3 <
      (updV paramsC3 5 (paramsC3 5 + π / 2)) 4) := by
    norm_num [updV, paramsC3]
  have hswap : canonSwap (updV paramsC3 5 (paramsC3 5 + π / 2),
      (none : Option (ℕ → ℝ))) 0 = (updV paramsC3 5 (paramsC3 5 + π / 2), none) := by
    rw [canonSwap]
    simp only [Nat.zero_mul, Nat.zero_add]
    rw [if_neg hcond]
  have hw5 : canonWrap (updV paramsC3 5 (paramsC3 5 + π / 2)) 0 (0 * 6 + 5) =
      -(3 * π) / 2 := by
    rw [canonWrap_apply_self]
    simp only [Nat.zero_mul, Nat.zero_add]
    have harg : (updV paramsC3 5 (paramsC3 5 + π / 2)) 5 = -(3 * π) / 2 := by
      simp only [updV, if_pos rfl, paramsC3]
      norm_num
      ring
    rw [harg]
    have hdiv : (-(3 * π) / 2) / (2 * π) = -(3 / 4 : ℝ) := by
      have h2ne : (2 * π : ℝ) ≠ 0 := by positivity
      rw [div_eq_iff h2ne]
      ring
    rw [hdiv]
    have hpy : pyint (-(3 / 4 : ℝ)) = 0 := by
      rw [pyint, if_neg (by norm_num)]
      rw [Int.ceil_eq_zero_iff]
      constructor
      · norm_num
      · norm_num
    rw [hpy]
    norm_num
  have hval : (multi_gauss_canon paramsC3 none 1).1 (0 * 6 + 5) = -(3 * π) / 2 := by
    rw [h0, canonStep]
    dsimp only
    rw [hswap]
    dsimp only
    have hnotgt : ¬ (canonWrap (updV paramsC3 5 (paramsC3 5 + π / 2)) 0 (0 * 6 + 5) > π) := by
      rw [hw5]
      push_neg
      linarith
    rw [canonFold, if_neg hnotgt]
    exact hw5
  refine ⟨hval, ?_⟩
  rw [hval]
  push_neg
  linarith

/-! ### Beam (fits_image.py) -/

/-- `Beam` (`fits_image.py` lines 148-158): holds the two axis lengths (in
pixels), the position angle (radians) and the aspect ratio. -/
structure Beam where
  a : ℝ
  b : ℝ
  pa : ℝ
  aspect : ℝ

/-- The `Beam.__init__` constructor (`fits_image.py` lines 154-158):
`self.a = abs(a)`, `self.b = abs(b)`, `self.pa = pa`,
`self.aspect = abs(a)/abs(b)`.  No axis swap is performed. -/
noncomputable def mkBeam (a b pa : ℝ) : Beam := ⟨|a|, |b|, pa, |a| / |b|⟩

/-- Claim C10 counterexample: `Beam(1, 2, 0)` stores `a = 1 < 2 = b`; the
stored `a` is not the larger of the two stored axis lengths. -/
theorem claim_C10_counterexample : ¬ ((mkBeam 1 2 0).b ≤ (mkBeam 1 2 0).a) := by
  show ¬ (|(2:ℝ)| ≤ |(1:ℝ)|)
  norm_num

/-- Claim C10 (amended): the constructor stores the absolute values of the
two axis arguments in their given order (no swap), the aspect equals the
stored a divided by the stored b, and `a ≥ b` holds exactly when the first
argument's absolute value is at least the second's. -/
theorem claim_C10_beam_amended (a b pa : ℝ) :
    (mkBeam a b pa).a = |a| ∧ (mkBeam a b pa).b = |b| ∧
    (mkBeam a b pa).aspect = (mkBeam a b pa).a / (mkBeam a b pa).b ∧
    (|b| ≤ |a| → (mkBeam a b pa).b ≤ (mkBeam a b pa).a) :=
  ⟨rfl, rfl, rfl, fun h => h⟩

/-- Claim C10 witness: the amended statement at `Beam(2, 1, 0)`, with its
conditional discharged. -/
theorem claim_C10_amended_witness :
    ((mkBeam 2 1 0).a = |(2:ℝ)| ∧ (mkBeam 2 1 0).b = |(1:ℝ)| ∧
      (mkBeam 2 1 0).aspect = (mkBeam 2 1 0).a / (mkBeam 2 1 0).b ∧
      (|(1:ℝ)| ≤ |(2:ℝ)| → (mkBeam 2 1 0).b ≤ (mkBeam 2 1 0).a)) ∧
    (mkBeam 2 1 0).b ≤ (mkBeam 2 1 0).a :=
  ⟨claim_C10_beam_amended 2 1 0,
   (claim_C10_beam_amended 2 1 0).2.2.2 (by norm_num)⟩

/-! ### Parameter estimator (estimate_parinfo) -/

/-- Names of the six per-summit parameters, the tail of the source's
`parname` strings `"{i}:amp"`, …, `"{i}:pa"`. -/
inductive ParName
  | amp
  | xo
  | yo
  | dx
  | dy
  | pa
deriving DecidableEq

/-- One `parinfo` dictionary entry as built by `estimate_parinfo`:
`{value, fixed, parname, limits, limited[, flags]}` — the `flags` key is only
present on the dx/dy/pa entries, hence an `Option`. -/
structure ParEntry where
  value : ℝ
  fixed : Bool
  pname : ParName
  limits : ℝ × ℝ
  limited : Bool × Bool
  flags : Option ℕ

/-- Number of finite (non-NaN) pixels of an island
(`len(data[np.where(data==data)].ravel())`, `aegean.py` line 415). -/
def nonNanCount (g : Grid (Option ℚ)) : ℕ :=
  ((coordsRowMajor g.rows g.cols).filter (fun p => (g.pix p).isSome)).length

/-- The island-level flag of `estimate_parinfo` (`aegean.py` lines 416-423):
FIXED2PSF for 4-6 finite pixels, FITERRSMALL for fewer than 4, else 0. -/
def estimateIsFlag (g : Grid (Option ℚ)) : ℕ :=
  if 4 ≤ nonNanCount g ∧ nonNanCount g ≤ 6 then FIXED2PSF
  else if nonNanCount g < 4 then FITERRSMALL
  else 0

/-- The curvature mask of `estimate_parinfo` line 432:
`np.where(curve < -1*csigma, np.where(data-5*rmsimg > 0, data, -1), -1)`
(no pixel of the result is NaN: the inner condition is false on NaN data). -/
def kappaSigma (data : Grid (Option ℚ)) (rmsimg : Grid ℚ) (curve : Grid ℚ)
    (cs : ℚ) : Grid (Option ℚ) :=
  ⟨data.rows, data.cols, fun p =>
    if curve.pix p < -1 * cs then
      (match data.pix p with
       | some v => if 0 < v - 5 * rmsimg.pix p then some v else some (-1)
       | none => some (-1))
    else some (-1)⟩

/-- The summit list of `estimate_parinfo` (`aegean.py` lines 426-433): small
or thin islands yield the single whole-island summit
`[[data, 0, data.shape[0], 0, data.shape[1]]]`; otherwise the curvature mask
is segmented with `gen_flood_wrap` at threshold 0 (with unit rms and default
outerclip).  `csigma` defaults to 0 when `None` (or zero) is supplied, as in
`if not csigma: csigma = 0`. -/
def estimateSummits (data : Grid (Option ℚ)) (rmsimg : Grid ℚ) (curve : Grid ℚ)
    (csigma : Option ℚ) : List (Grid (Option ℚ) × ℕ × ℕ × ℕ × ℕ) :=
  if min data.rows data.cols ≤ 2 ∨ estimateIsFlag data &&& FITERRSMALL ≠ 0 then
    [(data, 0, data.rows, 0, data.cols)]
  else
    gen_flood_wrap (kappaSigma data rmsimg curve (csigma.getD 0))
      ⟨data.rows, data.cols, fun _ => 1⟩ 0 none

/-- `fwhm2cc = 1/(2*math.sqrt(2*math.log(2)))` (`aegean.py` line 405). -/
noncomputable def fwhm2cc : ℝ := 1 / (2 * Real.sqrt (2 * Real.log 2))

/-- The list of finite values of a grid in row-major order. -/
def finiteVals (g : Grid (Option ℚ)) : List ℚ :=
  (coordsRowMajor g.rows g.cols).filterMap (fun p => g.pix p)

/-- `summit[np.where(summit==summit)].max()` (`aegean.py` line 440); the
source raises on an all-NaN summit (summits always hold at least one finite
pixel), here totalized with 0. -/
def maxFinite (g : Grid (Option ℚ)) : ℚ :=
  match finiteVals g with
  | [] => 0
  | v :: vs => vs.foldl max v

/-- `(xo,yo) = np.where(summit==amp)` (`aegean.py` line 442): `np.where`
returns all maximising positions in row-major order and the subsequent code
uses them as a single position; modelled as the first maximising position
(exact whenever the maximum is attained once, as in the islands used below),
totalized with (0,0). -/
def argmaxPix (g : Grid (Option ℚ)) (a : ℚ) : Pix :=
  match (coordsRowMajor g.rows g.cols).filter (fun p => g.pix p = some a) with
  | [] => ⟨0, 0⟩
  | p :: _ => p

/-- The shape initial values and bounds of one summit (`aegean.py` lines
461-471), as `(dx, dx_min, dx_max, dy, dy_min, dy_max)`, before the
FIXED2PSF override: `dx = max(beam.b,(xmax-xmin+1)*sqrt(2))*fwhm2cc`,
`dx_max = max(dx,(xmax-xmin+2)*sqrt(2)*fwhm2cc)`,
`dx_min = min(beam.b*fwhm2cc, dx_max)`, and symmetrically for dy with
`beam.a` and the y extent. -/
noncomputable def summitShapeBounds (beam : Beam) (xmin xmax ymin ymax : ℕ) :
    ℝ × ℝ × ℝ × ℝ × ℝ × ℝ :=
  (max beam.b (((xmax - xmin + 1 : ℕ) : ℝ) * Real.sqrt 2) * fwhm2cc,
   min (beam.b * fwhm2cc)
     (max (max beam.b (((xmax - xmin + 1 : ℕ) : ℝ) * Real.sqrt 2) * fwhm2cc)
       (((xmax - xmin + 1 + 1 : ℕ) : ℝ) * Real.sqrt 2 * fwhm2cc)),
   max (max beam.b (((xmax - xmin + 1 : ℕ) : ℝ) * Real.sqrt 2) * fwhm2cc)
     (((xmax - xmin + 1 + 1 : ℕ) : ℝ) * Real.sqrt 2 * fwhm2cc),
   max beam.a (((ymax - ymin + 1 : ℕ) : ℝ) * Real.sqrt 2) * fwhm2cc,
   min (beam.a * fwhm2cc)
     (max (max beam.a (((ymax - ymin + 1 : ℕ) : ℝ) * Real.sqrt 2) * fwhm2cc)
       (((ymax - ymin + 1 + 1 : ℕ) : ℝ) * Real.sqrt 2 * fwhm2cc)),
   max (max beam.a (((ymax - ymin + 1 : ℕ) : ℝ) * Real.sqrt 2) * fwhm2cc)
     (((ymax - ymin + 1 + 1 : ℕ) : ℝ) * Real.sqrt 2 * fwhm2cc))

open Classical in
/-- The summit flag after the degenerate-shape-bounds check of `aegean.py`
lines 473-475: `if dy_min==dy_max or dx_min==dx_max: summit_flag|=FIXED2PSF`. -/
noncomputable def summitFlag (beam : Beam) (is_flag : ℕ)
    (xmin xmax ymin ymax : ℕ) : ℕ :=
  let b := summitShapeBounds beam xmin xmax ymin ymax
  if b.2.2.2.2.1 = b.2.2.2.2.2 ∨ b.2.1 = b.2.2.1 then is_flag ||| FIXED2PSF
  else is_flag

open Classical in
/-- The six `parinfo` entries appended for one summit by the body of the
`for summit,... in summits` loop of `estimate_parinfo` (`aegean.py` lines
436-526): amplitude, positions (with beam-projected bounds, collapsed-bound
fixups of lines 452-456, the second of which re-tests the x bounds — a slip
in the source that can never fire), shapes (with the FIXED2PSF override of
lines 477-480; the `pa=beam.pa` there is dead because line 482 sets `pa=0`
unconditionally), and position angle.  `is_flag` is the island-level flag. -/
noncomputable def summitEntries (rmsimg : Grid ℚ) (beam : Beam) (is_flag : ℕ)
    (s : Grid (Option ℚ) × ℕ × ℕ × ℕ × ℕ) : List ParEntry :=
  let summit := s.1
  let xmin := s.2.1
  let xmax := s.2.2.1
  let ymin := s.2.2.2.1
  let ymax := s.2.2.2.2
  let xo_lim : ℝ := (beam.a * Real.cos beam.pa + beam.b * Real.sin beam.pa) / 2
  let yo_lim : ℝ := (beam.a * Real.sin beam.pa + beam.b * Real.cos beam.pa) / 2
  let amp : ℚ := maxFinite summit
  let xy := argmaxPix summit amp
  let xo : ℕ := xy.x + xmin
  let yo : ℕ := xy.y + ymin
  let amp_min : ℚ := 4 * rmsimg.pix ⟨xo, yo⟩
  let amp_max : ℚ := amp * (21 / 20) + 3 * rmsimg.pix ⟨xo, yo⟩
  let xo_min0 : ℝ := min (xmin : ℝ) ((xo : ℝ) - xo_lim)
  let xo_max0 : ℝ := max (xmax : ℝ) ((xo : ℝ) + xo_lim)
  let xo_min1 : ℝ := if xo_min0 = xo_max0 then xo_min0 - 1 / 2 else xo_min0
  let xo_max1 : ℝ := if xo_min0 = xo_max0 then xo_max0 + 1 / 2 else xo_max0
  let yo_min : ℝ := min (ymin : ℝ) ((yo : ℝ) - yo_lim)
  let yo_max : ℝ := max (ymax : ℝ) ((yo : ℝ) + yo_lim)
  let xo_min2 : ℝ := if xo_min1 = xo_max1 then xo_min1 - 1 / 2 else xo_min1
  let xo_max2 : ℝ := if xo_min1 = xo_max1 then xo_max1 + 1 / 2 else xo_max1
  let b := summitShapeBounds beam xmin xmax ymin ymax
  let flag : ℕ := summitFlag beam is_flag xmin xmax ymin ymax
  let dx : ℝ := if flag &&& FIXED2PSF ≠ 0 then beam.b * fwhm2cc else b.1
  let dy : ℝ := if flag &&& FIXED2PSF ≠ 0 then beam.a * fwhm2cc else b.2.2.2.1
  [⟨(amp : ℝ), false, ParName.amp, ((amp_min : ℝ), (amp_max : ℝ)), (true, true), none⟩,
   ⟨(xo : ℝ), false, ParName.xo, (xo_min2, xo_max2), (true, true), none⟩,
   ⟨(yo : ℝ), false, ParName.yo, (yo_min, yo_max), (true, true), none⟩,
   ⟨dx, decide (0 < flag &&& FIXED2PSF), ParName.dx, (b.2.1, b.2.2.1), (true, true), some flag⟩,
   ⟨dy, decide (0 < flag &&& FIXED2PSF), ParName.dy, (b.2.2.2.2.1, b.2.2.2.2.2), (true, true), some flag⟩,
   ⟨0, decide (0 < flag &&& FIXED2PSF), ParName.pa, (-π, π), (false, false), some flag⟩]

/-- `estimate_parinfo` (`aegean.py` lines 381-528): the concatenation of the
six entries of every summit.  (The data/curvature shape-mismatch check of
lines 408-411 aborts the program and is not modelled.) -/
noncomputable def estimate_parinfo (data : Grid (Option ℚ)) (rmsimg : Grid ℚ)
    (curve : Grid ℚ) (beam : Beam) (csigma : Option ℚ) : List ParEntry :=
  ((estimateSummits data rmsimg curve csigma).map
    (summitEntries rmsimg beam (estimateIsFlag data))).flatten

theorem and_one_or_four (s : ℕ) : (s ||| FIXED2PSF) &&& FITERRSMALL = s &&& FITERRSMALL := by
  show (s ||| 4) &&& 1 = s &&& 1
  have k1 := Nat.and_two_pow (s ||| 4) 0
  have k2 := Nat.and_two_pow s 0
  have h2 : Nat.testBit 4 0 = false := by decide
  rw [pow_zero] at k1 k2
  rw [k1, k2, Nat.testBit_or, h2, Bool.or_false]

theorem summitFlag_and_fiterrsmall (beam : Beam) (is_flag : ℕ)
    (xmin xmax ymin ymax : ℕ) :
    summitFlag beam is_flag xmin xmax ymin ymax &&& FITERRSMALL =
      is_flag &&& FITERRSMALL := by
  unfold summitFlag
  dsimp only
  split
  · exact and_one_or_four is_flag
  · rfl

theorem estimateIsFlag_fiterrsmall (g : Grid (Option ℚ)) :
    estimateIsFlag g &&& FITERRSMALL ≠ 0 ↔ nonNanCount g < 4 := by
  unfold estimateIsFlag
  split
  · rename_i h1
    have h4 : FIXED2PSF &&& FITERRSMALL = 0 := by decide
    rw [h4]
    simp only [ne_eq, not_true_eq_false, false_iff]
    omega
  · split
    · rename_i h2
      have hone : FITERRSMALL &&& FITERRSMALL = 1 := by decide
      rw [hone]
      simp [h2]
    · rename_i h1 h2
      have h0 : (0 : ℕ) &&& FITERRSMALL = 0 := by decide
      rw [h0]
      simp only [ne_eq, not_true_eq_false, false_iff]
      exact h2

theorem summitEntries_flags (rmsimg : Grid ℚ) (beam : Beam) (is_flag : ℕ)
    (s : Grid (Option ℚ) × ℕ × ℕ × ℕ × ℕ) :
    ∀ e ∈ summitEntries rmsimg beam is_flag s,
      (e.pname = ParName.dx ∨ e.pname = ParName.dy ∨ e.pname = ParName.pa) →
      (e.flags.getD 0) &&& FITERRSMALL = is_flag &&& FITERRSMALL := by
  intro e he hname
  unfold summitEntries at he
  simp only [List.mem_cons, List.mem_singleton] at he
  rcases he with rfl | rfl | rfl | rfl | rfl | rfl | hfalse
  · rcases hname with h | h | h <;> exact absurd h (by simp)
  · rcases hname with h | h | h <;> exact absurd h (by simp)
  · rcases hname with h | h | h <;> exact absurd h (by simp)
  · exact summitFlag_and_fiterrsmall beam is_flag _ _ _ _
  · exact summitFlag_and_fiterrsmall beam is_flag _ _ _ _
  · exact summitFlag_and_fiterrsmall beam is_flag _ _ _ _
  · exact absurd hfalse (List.not_mem_nil e)

/-- Claim C2 (amended): when the island's narrowest bounding-box dimension is
at most 2 pixels OR it has fewer than 4 finite pixels, the estimator treats
the whole island as exactly one summit (no curvature decomposition), but the
FITERRSMALL flag is carried by the summit's dx/dy/pa entries IF AND ONLY IF
the island has fewer than 4 finite pixels — a thin island with 4 or more
finite pixels gets the single whole-island summit WITHOUT FITERRSMALL. -/
theorem claim_C2_small_island_amended (data : Grid (Option ℚ)) (rmsimg : Grid ℚ)
    (curve : Grid ℚ) (beam : Beam) (csigma : Option ℚ)
    (h : min data.rows data.cols ≤ 2 ∨ nonNanCount data < 4) :
    estimateSummits data rmsimg curve csigma = [(data, 0, data.rows, 0, data.cols)] ∧
    ∀ e ∈ estimate_parinfo data rmsimg curve beam csigma,
      (e.pname = ParName.dx ∨ e.pname = ParName.dy ∨ e.pname = ParName.pa) →
      ((e.flags.getD 0) &&& FITERRSMALL ≠ 0 ↔ nonNanCount data < 4) := by
  have hcond : min data.rows data.cols ≤ 2 ∨ estimateIsFlag data &&& FITERRSMALL ≠ 0 := by
    rcases h with h | h
    · exact Or.inl h
    · exact Or.inr ((estimateIsFlag_fiterrsmall data).mpr h)
  have hsum : estimateSummits data rmsimg curve csigma =
      [(data, 0, data.rows, 0, data.cols)] := by
    rw [estimateSummits, if_pos hcond]
  refine ⟨hsum, ?_⟩
  intro e he hname
  rw [estimate_parinfo, hsum] at he
  simp only [List.map_cons, List.map_nil, List.flatten_cons, List.flatten_nil,
    List.append_nil] at he
  rw [summitEntries_flags rmsimg beam (estimateIsFlag data) _ e he hname]
  exact estimateIsFlag_fiterrsmall data

/-- A 1×3 island of 3 finite pixels (both small-island conditions hold). -/
def dataW2 : Grid (Option ℚ) := ⟨1, 3, fun _ => some 1⟩
/-- Unit noise for `dataW2`. -/
def rmsW2 : Grid ℚ := ⟨1, 3, fun _ => 1⟩
/-- Zero curvature for `dataW2`. -/
def curveW2 : Grid ℚ := ⟨1, 3, fun _ => 0⟩
/-- A circular unit beam. -/
noncomputable def beamW2 : Beam := mkBeam 1 1 0

/-- Claim C2 witness: the amended statement evaluated on the 1×3
three-finite-pixel island. -/
theorem claim_C2_amended_witness :
    (min dataW2.rows dataW2.cols ≤ 2 ∨ nonNanCount dataW2 < 4) ∧
    (estimateSummits dataW2 rmsW2 curveW2 none =
      [(dataW2, 0, dataW2.rows, 0, dataW2.cols)] ∧
    ∀ e ∈ estimate_parinfo dataW2 rmsW2 curveW2 beamW2 none,
      (e.pname = ParName.dx ∨ e.pname = ParName.dy ∨ e.pname = ParName.pa) →
      ((e.flags.getD 0) &&& FITERRSMALL ≠ 0 ↔ nonNanCount dataW2 < 4)) :=
  ⟨by decide, claim_C2_small_island_amended dataW2 rmsW2 curveW2 beamW2 none (by decide)⟩

/-- A 2×3 island with all 6 pixels finite: narrowest dimension 2 ≤ 2, yet
4 ≤ 6 ≤ 6 finite pixels, so the island-level flag is FIXED2PSF. -/
def dataC2 : Grid (Option ℚ) := ⟨2, 3, fun _ => some 1⟩
/-- Unit noise for `dataC2`. -/
def rmsC2 : Grid ℚ := ⟨2, 3, fun _ => 1⟩
/-- Zero curvature for `dataC2`. -/
def curveC2 : Grid ℚ := ⟨2, 3, fun _ => 0⟩
/-- A circular unit beam. -/
noncomputable def beamC2 : Beam := mkBeam 1 1 0

theorem estimate_parinfo_dataC2_eq :
    estimate_parinfo dataC2 rmsC2 curveC2 beamC2 none =
      summitEntries rmsC2 beamC2 FIXED2PSF (dataC2, 0, dataC2.rows, 0, dataC2.cols) := by
  rw [estimate_parinfo, estimateSummits, if_pos (Or.inl (by decide))]
  have hflag : estimateIsFlag dataC2 = FIXED2PSF := by decide
  rw [hflag]
  simp

/-- Claim C2 counterexample: `dataC2` has narrowest dimension 2 ≤ 2, so by
the claim the single summit should carry FITERRSMALL; but every entry built
by the estimator has a FITERRSMALL bit of 0. -/
theorem claim_C2_counterexample :
    min dataC2.rows dataC2.cols ≤ 2 ∧
    (estimate_parinfo dataC2 rmsC2 curveC2 beamC2 none).map
      (fun e => (e.flags.getD 0) &&& FITERRSMALL) = [0, 0, 0, 0, 0, 0] := by
  refine ⟨by decide, ?_⟩
  rw [estimate_parinfo_dataC2_eq]
  unfold summitEntries
  dsimp only
  simp only [List.map_cons, List.map_nil, Option.getD_some, Option.getD_none]
  rw [summitFlag_and_fiterrsmall]
  norm_num
  decide

/-! ### Per-island fit dispatch in find_sources_in_image -/

/-- Whether a parameter name is one of dy/dx/pa, i.e.
`src['parname'].split(":")[-1] in ['dy','dx','pa']`. -/
def shapeParName : ParName → Bool
  | ParName.dx => true
  | ParName.dy => true
  | ParName.pa => true
  | _ => false

/-- `src['flags'] |= NOTFIT` applied to the dy/dx/pa entries
(`aegean.py` lines 816-818 and 824-826). -/
def addNotfit (e : ParEntry) : ParEntry :=
  if shapeParName e.pname then { e with flags := e.flags.map (fun f => f ||| NOTFIT) }
  else e

/-- The per-island fit dispatch of `find_sources_in_image` (`aegean.py`
lines 802-831): extract `is_flag` from the first dy/dx/pa entry carrying
FITERRSMALL (lines 807-812); if the island has more summits than the cap,
flag every dy/dx/pa entry NOTFIT and build a DummyMP (lines 813-820); then —
in a SEPARATE `if`/`else`, lines 821-831 — islands flagged FITERRSMALL get a
DummyMP while EVERY other island is handed to `multi_gauss`, overwriting the
DummyMP of the max-summits branch.  Returns the (possibly NOTFIT-flagged)
parinfo and `true` exactly when `multi_gauss` (the optimizer) runs. -/
def islandDispatch (parinfo : List ParEntry) (max_summits : Option ℚ) :
    List ParEntry × Bool :=
  let num_summits : ℕ := parinfo.length / 6
  let is_flag : ℕ :=
    match parinfo.find? (fun e => shapeParName e.pname &&
        decide ((e.flags.getD 0) &&& FITERRSMALL ≠ 0)) with
    | some e => e.flags.getD 0
    | none => 0
  let p1 : List ParEntry :=
    match max_summits with
    | some m => if (num_summits : ℚ) > m then parinfo.map addNotfit else parinfo
    | none => parinfo
  if is_flag &&& FITERRSMALL ≠ 0 then (p1.map addNotfit, false) else (p1, true)

/-- Claim C1 (code bug witness): `dataC2` yields one summit, exceeding a
caller-imposed cap of `max_summits = 0`, yet the dispatch still runs the
optimizer (`multi_gauss`), because the source's max-summits branch is
followed by a separate `if`/`else` that unconditionally reassigns `mp`. -/
theorem claim_C1_capped_island_still_fitted :
    ((estimate_parinfo dataC2 rmsC2 curveC2 beamC2 none).length / 6 : ℚ) > 0 ∧
    (islandDispatch (estimate_parinfo dataC2 rmsC2 curveC2 beamC2 none) (some 0)).2 = true := by
  have hlen : (estimate_parinfo dataC2 rmsC2 curveC2 beamC2 none).length = 6 := by
    rw [estimate_parinfo_dataC2_eq]
    unfold summitEntries
    dsimp only
    rfl
  have hpred : ∀ e ∈ estimate_parinfo dataC2 rmsC2 curveC2 beamC2 none,
      ¬ ((shapeParName e.pname &&
        decide ((e.flags.getD 0) &&& FITERRSMALL ≠ 0)) = true) := by
    intro e he
    by_cases hs : shapeParName e.pname = true
    · have hname : e.pname = ParName.dx ∨ e.pname = ParName.dy ∨ e.pname = ParName.pa := by
        rcases hp : e.pname with _ | _ | _ | _ | _ | _ <;>
          simp only [shapeParName, hp] at hs <;> simp_all
      rw [estimate_parinfo_dataC2_eq] at he
      have hbit := summitEntries_flags rmsC2 beamC2 FIXED2PSF _ e he hname
      have hz : (e.flags.getD 0) &&& FITERRSMALL = 0 := by
        rw [hbit]
        decide
      simp [hs, hz]
    · simp [Bool.and_eq_true]
      intro hcon
      exact absurd hcon hs
  have hfind : (estimate_parinfo dataC2 rmsC2 curveC2 beamC2 none).find?
      (fun e => shapeParName e.pname &&
        decide ((e.flags.getD 0) &&& FITERRSMALL ≠ 0)) = none :=
    List.find?_eq_none.mpr hpred
  constructor
  · rw [hlen]
    norm_num
  · simp only [islandDispatch]
    rw [hfind]
    simp

/-! ### Per-component error post-processing in find_sources_in_image -/

/-- A junk entry used for out-of-range `info[j*6+5]` reads (the source would
raise an IndexError there; it never happens for well-formed parinfo). -/
noncomputable def defaultParEntry : ParEntry :=
  ⟨0, false, ParName.pa, (0, 0), (false, false), none⟩

/-- One iteration (component `j`) of the error post-processing of
`find_sources_in_image` (`aegean.py` lines 841-854): if `mp.perror` is
`None`, synthesize a zero vector of length `len(mp.params) = 6*n` and record
the failure (`err = True`, which persists across components); replace every
zero-valued entry of `mp.perror` by −1; the component's flags word is FITERR
(when a failure was recorded) OR-ed with the flags of its pa entry
`info[j*6+5]`.  State: (perror, err, flags-per-component so far). -/
noncomputable def processErrorsStep (n : ℕ) (info : List ParEntry)
    (st : Option (ℕ → ℝ) × Bool × List ℕ) (j : ℕ) :
    Option (ℕ → ℝ) × Bool × List ℕ :=
  let pe1 : ℕ → ℝ := match st.1 with
    | none => fun _ => 0
    | some pe => pe
  let err1 : Bool := match st.1 with
    | none => true
    | some _ => st.2.1
  let pe2 : ℕ → ℝ := fun k => if k < 6 * n ∧ pe1 k = 0 then -1 else pe1 k
  let fl : ℕ := (if err1 then FITERR else 0) |||
    ((info.getD (j * 6 + 5) defaultParEntry).flags).getD 0
  (some pe2, err1, st.2.2 ++ [fl])

/-- The error post-processing of `find_sources_in_image` over all `n`
components of one island (`aegean.py` lines 836-854): the loop over
`j in range(len(params)/6)` threading `mp.perror` and `err`. -/
noncomputable def processErrors (n : ℕ) (perror : Option (ℕ → ℝ))
    (info : List ParEntry) : Option (ℕ → ℝ) × Bool × List ℕ :=
  (List.range n).foldl (processErrorsStep n info) (perror, false, [])

theorem processErrorsStep_eq_none (n : ℕ) (info : List ParEntry) (err : Bool)
    (fls : List ℕ) (j : ℕ) :
    processErrorsStep n info (none, err, fls) j =
      (some (fun k => if k < 6 * n ∧ (0:ℝ) = 0 then -1 else (0:ℝ)), true,
       fls ++ [FITERR ||| ((info.getD (j * 6 + 5) defaultParEntry).flags).getD 0]) :=
  rfl

theorem processErrorsStep_eq_some (n : ℕ) (info : List ParEntry) (pe : ℕ → ℝ)
    (err : Bool) (fls : List ℕ) (j : ℕ) :
    processErrorsStep n info (some pe, err, fls) j =
      (some (fun k => if k < 6 * n ∧ pe k = 0 then -1 else pe k), err,
       fls ++ [(if err then FITERR else 0) |||
         ((info.getD (j * 6 + 5) defaultParEntry).flags).getD 0]) :=
  rfl

theorem and_fiterr_or (x : ℕ) : (FITERR ||| x) &&& FITERR ≠ 0 := by
  show (2 ||| x) &&& 2 ≠ 0
  have key := Nat.and_two_pow (2 ||| x) 1
  rw [show (2:ℕ) ^ 1 = 2 from rfl] at key
  rw [key, Nat.testBit_or]
  have h2 : Nat.testBit 2 1 = true := by decide
  rw [h2, Bool.true_or]
  simp

theorem processErrorsStep_some (n : ℕ) (info : List ParEntry)
    (st : Option (ℕ → ℝ) × Bool × List ℕ) (j : ℕ) :
    ∃ pe, (processErrorsStep n info st j).1 = some pe ∧
      ∀ k < 6 * n, pe k ≠ 0 := by
  rcases st with ⟨pe0, err, fls⟩
  rcases pe0 with _ | pe0
  · rw [processErrorsStep_eq_none]
    refine ⟨_, rfl, ?_⟩
    intro k hk
    rw [if_pos ⟨hk, rfl⟩]
    norm_num
  · rw [processErrorsStep_eq_some]
    refine ⟨_, rfl, ?_⟩
    intro k hk
    by_cases hz : pe0 k = 0
    · rw [if_pos ⟨hk, hz⟩]
      norm_num
    · rw [if_neg]
      · exact hz
      · rw [not_and]
        intro _
        exact hz

theorem processErrorsFold_some (n : ℕ) (info : List ParEntry) :
    ∀ (js : List ℕ) (st : Option (ℕ → ℝ) × Bool × List ℕ), js ≠ [] →
    ∃ pe, (js.foldl (processErrorsStep n info) st).1 = some pe ∧
      ∀ k < 6 * n, pe k ≠ 0 := by
  intro js
  induction js with
  | nil => intro st h; exact absurd rfl h
  | cons j rest ih =>
    intro st _
    rw [List.foldl_cons]
    by_cases hr : rest = []
    · subst hr
      rw [List.foldl_nil]
      exact processErrorsStep_some n info st j
    · exact ih (processErrorsStep n info st j) hr

theorem processErrorsFold_allneg (n : ℕ) (info : List ParEntry) :
    ∀ (js : List ℕ) (st : Option (ℕ → ℝ) × Bool × List ℕ),
    (∃ pe, st.1 = some pe ∧ ∀ k < 6 * n, pe k = -1) →
    ∃ pe, (js.foldl (processErrorsStep n info) st).1 = some pe ∧
      ∀ k < 6 * n, pe k = -1 := by
  intro js
  induction js with
  | nil => intro st h; exact h
  | cons j rest ih =>
    rintro ⟨pe0, err, fls⟩ hst
    rcases hst with ⟨pe, hpe, hneg⟩
    dsimp only at hpe
    subst hpe
    rw [List.foldl_cons]
    apply ih
    rw [processErrorsStep_eq_some]
    refine ⟨_, rfl, ?_⟩
    intro k hk
    rw [if_neg]
    · exact hneg k hk
    · rw [not_and]
      intro _
      rw [hneg k hk]
      norm_num

theorem processErrorsFold_err (n : ℕ) (info : List ParEntry) :
    ∀ (js : List ℕ) (st : Option (ℕ → ℝ) × Bool × List ℕ),
    (st.2.1 = true ∨ st.1 = none) →
    (∀ fl ∈ st.2.2, fl &&& FITERR ≠ 0) →
    (∀ fl ∈ (js.foldl (processErrorsStep n info) st).2.2,
      fl &&& FITERR ≠ 0) ∧
    (js ≠ [] → (js.foldl (processErrorsStep n info) st).2.1 = true) := by
  intro js
  induction js with
  | nil =>
    intro st _ hfl
    exact ⟨hfl, fun h => absurd rfl h⟩
  | cons j rest ih =>
    rintro ⟨pe0, err, fls⟩ herr hfl
    rw [List.foldl_cons]
    have hstep : ∃ fl1, processErrorsStep n info (pe0, err, fls) j =
        (some (fun k => if k < 6 * n ∧ (match pe0 with
            | none => fun _ => (0:ℝ)
            | some pe => pe) k = 0 then -1
          else (match pe0 with
            | none => fun _ => (0:ℝ)
            | some pe => pe) k), true, fls ++ [fl1]) ∧
        fl1 &&& FITERR ≠ 0 := by
      rcases pe0 with _ | pe0
      · rw [processErrorsStep_eq_none]
        exact ⟨_, rfl, and_fiterr_or _⟩
      · have herr2 : err = true := by
          rcases herr with h | h
          · exact h
          · exact absurd h (by simp)
        subst herr2
        rw [processErrorsStep_eq_some]
        refine ⟨_, rfl, ?_⟩
        rw [if_pos rfl]
        exact and_fiterr_or _
    rcases hstep with ⟨fl1, hstepeq, hfl1⟩
    have hfl2 : ∀ fl ∈ fls ++ [fl1], fl &&& FITERR ≠ 0 := by
      intro fl hmem
      rcases List.mem_append.mp hmem with h | h
      · exact hfl fl h
      · rcases List.mem_singleton.mp h with rfl
        exact hfl1
    have hflstate : ∀ fl ∈ (processErrorsStep n info (pe0, err, fls) j).2.2,
        fl &&& FITERR ≠ 0 := by
      rw [hstepeq]
      exact hfl2
    have herrstate : (processErrorsStep n info (pe0, err, fls) j).2.1 = true ∨
        (processErrorsStep n info (pe0, err, fls) j).1 = none := by
      rw [hstepeq]
      exact Or.inl rfl
    rcases ih _ herrstate hflstate with ⟨ha, hb⟩
    refine ⟨ha, fun _ => ?_⟩
    by_cases hr : rest = []
    · subst hr
      rw [List.foldl_nil, hstepeq]
    · exact hb hr

/-- Claim C9: if the solver reports no error estimates (`mp.perror is
None`), the post-processing synthesizes a zero vector, marks the failure so
that every component of the island carries FITERR, and turns every
(synthesized) zero into the sentinel −1; moreover, whatever the solver
returned, no error slot of the final error vector is exactly zero. -/
theorem claim_C9_perror_postprocessing (n : ℕ) (perror : Option (ℕ → ℝ))
    (info : List ParEntry) (hn : 1 ≤ n) :
    (perror = none →
      (processErrors n perror info).2.1 = true ∧
      (∀ fl ∈ (processErrors n perror info).2.2, fl &&& FITERR ≠ 0) ∧
      (∃ pe, (processErrors n perror info).1 = some pe ∧
        ∀ k < 6 * n, pe k = -1)) ∧
    (∃ pe, (processErrors n perror info).1 = some pe ∧
      ∀ k < 6 * n, pe k ≠ 0) := by
  have hjs : List.range n ≠ [] := by
    intro hcon
    rw [List.range_eq_nil] at hcon
    omega
  constructor
  · intro hnone
    subst hnone
    rcases processErrorsFold_err n info (List.range n) (none, false, [])
      (Or.inr rfl) (by simp) with ⟨ha, hb⟩
    refine ⟨hb hjs, ha, ?_⟩
    rcases List.exists_cons_of_ne_nil hjs with ⟨j, rest, hr⟩
    show ∃ pe, ((List.range n).foldl (processErrorsStep n info) (none, false, [])).1 = some pe ∧
      ∀ k < 6 * n, pe k = -1
    rw [hr, List.foldl_cons, processErrorsStep_eq_none]
    apply processErrorsFold_allneg
    refine ⟨_, rfl, ?_⟩
    intro k hk
    rw [if_pos ⟨hk, rfl⟩]
  · exact processErrorsFold_some n info (List.range n) (perror, false, []) hjs

/-- An `info` list with a pa entry carrying empty flags, used to instantiate
the C9 witness. -/
noncomputable def infoC9 : List ParEntry :=
  [defaultParEntry, defaultParEntry, defaultParEntry, defaultParEntry,
   defaultParEntry, ⟨0, false, ParName.pa, (0, 0), (false, false), some 0⟩]

/-- Claim C9 witness: the statement applied to a one-component island whose
solver reported no errors. -/
theorem claim_C9_witness :
    1 ≤ 1 ∧
    (((none : Option (ℕ → ℝ)) = none →
      (processErrors 1 none infoC9).2.1 = true ∧
      (∀ fl ∈ (processErrors 1 none infoC9).2.2, fl &&& FITERR ≠ 0) ∧
      (∃ pe, (processErrors 1 none infoC9).1 = some pe ∧
        ∀ k < 6 * 1, pe k = -1)) ∧
    (∃ pe, (processErrors 1 none infoC9).1 = some pe ∧
      ∀ k < 6 * 1, pe k ≠ 0)) :=
  ⟨le_refl 1, claim_C9_perror_postprocessing 1 none infoC9 (le_refl 1)⟩

/-! ### Source assembler (the per-component block of find_sources_in_image) -/

/-- `within(x, xm, xx)`: enforce `xm <= x <= xx` (`aegean.py` lines 684-686). -/
noncomputable def within (x xm xx : ℝ) : ℝ := min (max x xm) xx

/-- Python 2 `int(round(v))`: round half away from zero, then truncate. -/
noncomputable def pyround (x : ℝ) : ℤ := if 0 ≤ x then ⌊x + 1 / 2⌋ else -⌊-x + 1 / 2⌋

/-- The numeric fields of one catalog record (`OutputSource` in `aegean.py`
lines 151-199; the identifiers and sexagesimal strings are omitted). -/
structure OutputSource where
  ra : ℝ
  dec : ℝ
  err_ra : ℝ
  err_dec : ℝ
  background : ℚ
  local_rms : ℚ
  peak_flux : ℝ
  err_peak_flux : ℝ
  a : ℝ
  err_a : ℝ
  b : ℝ
  err_b : ℝ
  pa : ℝ
  err_pa : ℝ
  int_flux : ℝ
  err_int_flux : ℝ
  flags : ℕ

/-- The per-component record assembly of `find_sources_in_image` (`aegean.py`
lines 856-915) for component `j` of an island with offset `(xmin, ymin)` and
dense shape `ishape`: positions through the external `pix2sky` transform
(with the one-pixel convention offset), position errors from the clamped
pixel errors (note the gate tests only the x-position error, and the x error
is clamped by `i.shape[1]` while the y error is clamped by `i.shape[0]`),
background/noise sampled from the global maps at the rounded clamped
centroid, shapes and fluxes converted to arcseconds/degrees with errors
scaled only when positive, and the quadrature integrated-flux error. -/
noncomputable def assembleSource (pix2sky : ℝ × ℝ → ℝ × ℝ)
    (bkgimg rmsimg : Grid ℚ) (beam : Beam) (cc2arcsec pix2arcsec : ℝ)
    (params perror : ℕ → ℝ) (flags : ℕ) (j xmin ymin : ℕ)
    (ishape : ℕ × ℕ) : OutputSource :=
  let dec_pix : ℝ := params (j * 6 + 1) + xmin + 1
  let ra_pix : ℝ := params (j * 6 + 2) + ymin + 1
  let coords := pix2sky (ra_pix, dec_pix)
  let errs : ℝ × ℝ :=
    if perror (j * 6 + 1) < 0 then (-1, -1)
    else
      let dec_err_pix := dec_pix + within (perror (j * 6 + 1)) (-1) (ishape.2 : ℝ)
      let ra_err_pix := ra_pix + within (perror (j * 6 + 2)) (-1) (ishape.1 : ℝ)
      let ec := pix2sky (ra_err_pix, dec_err_pix)
      (|coords.1 - ec.1|, |coords.2 - ec.2|)
  let xi : ℤ := max (min (pyround ra_pix) ((bkgimg.cols : ℤ) - 1)) 0
  let yi : ℤ := max (min (pyround dec_pix) ((bkgimg.rows : ℤ) - 1)) 0
  let aa : ℝ := params (j * 6 + 3) * cc2arcsec
  let ea : ℝ := if perror (j * 6 + 3) > 0 then perror (j * 6 + 3) * cc2arcsec
    else perror (j * 6 + 3)
  let bb : ℝ := params (j * 6 + 4) * cc2arcsec
  let eb : ℝ := if perror (j * 6 + 4) > 0 then perror (j * 6 + 4) * cc2arcsec
    else perror (j * 6 + 4)
  let iflux : ℝ := params (j * 6) * aa * bb / (beam.a * beam.b * pix2arcsec ^ 2)
  { ra := coords.1
    dec := coords.2
    err_ra := errs.1
    err_dec := errs.2
    background := bkgimg.pix ⟨yi.toNat, xi.toNat⟩
    local_rms := rmsimg.pix ⟨yi.toNat, xi.toNat⟩
    peak_flux := params (j * 6)
    err_peak_flux := perror (j * 6)
    a := aa
    err_a := ea
    b := bb
    err_b := eb
    pa := params (j * 6 + 5) * 180 / π
    err_pa := if perror (j * 6 + 5) > 0 then perror (j * 6 + 5) * 180 / π
      else perror (j * 6 + 5)
    int_flux := iflux
    err_int_flux := iflux * Real.sqrt ((perror (j * 6) / params (j * 6)) ^ 2 +
      (ea / aa) ^ 2 + (eb / bb) ^ 2)
    flags := flags }

/-- Claim C8: if the fitted x-position error is negative (the −1 sentinel),
both sky-position errors are the sentinel −1; otherwise each sky-position
error is the absolute coordinate difference between `pix2sky` at the fitted
centroid and `pix2sky` at the centroid perturbed by the fitted pixel errors
clamped to [−1, island extent]. -/
theorem claim_C8_position_errors (pix2sky : ℝ × ℝ → ℝ × ℝ)
    (bkgimg rmsimg : Grid ℚ) (beam : Beam) (cc2arcsec pix2arcsec : ℝ)
    (params perror : ℕ → ℝ) (flags : ℕ) (j xmin ymin : ℕ) (ishape : ℕ × ℕ) :
    (perror (j * 6 + 1) < 0 →
      (assembleSource pix2sky bkgimg rmsimg beam cc2arcsec pix2arcsec params
        perror flags j xmin ymin ishape).err_ra = -1 ∧
      (assembleSource pix2sky bkgimg rmsimg beam cc2arcsec pix2arcsec params
        perror flags j xmin ymin ishape).err_dec = -1) ∧
    (0 ≤ perror (j * 6 + 1) →
      (assembleSource pix2sky bkgimg rmsimg beam cc2arcsec pix2arcsec params
        perror flags j xmin ymin ishape).err_ra =
        |(pix2sky (params (j * 6 + 2) + ymin + 1, params (j * 6 + 1) + xmin + 1)).1 -
         (pix2sky (params (j * 6 + 2) + ymin + 1 +
             within (perror (j * 6 + 2)) (-1) (ishape.1 : ℝ),
           params (j * 6 + 1) + xmin + 1 +
             within (perror (j * 6 + 1)) (-1) (ishape.2 : ℝ))).1| ∧
      (assembleSource pix2sky bkgimg rmsimg beam cc2arcsec pix2arcsec params
        perror flags j xmin ymin ishape).err_dec =
        |(pix2sky (params (j * 6 + 2) + ymin + 1, params (j * 6 + 1) + xmin + 1)).2 -
         (pix2sky (params (j * 6 + 2) + ymin + 1 +
             within (perror (j * 6 + 2)) (-1) (ishape.1 : ℝ),
           params (j * 6 + 1) + xmin + 1 +
             within (perror (j * 6 + 1)) (-1) (ishape.2 : ℝ))).2|) := by
  constructor
  · intro h
    unfold assembleSource
    dsimp only
    rw [if_pos h]
    exact ⟨rfl, rfl⟩
  · intro h
    unfold assembleSource
    dsimp only
    rw [if_neg (not_lt.mpr h)]
    exact ⟨rfl, rfl⟩

/-- A 1×1 all-zero global map used by the C8 witness. -/
def gridC8 : Grid ℚ := ⟨1, 1, fun _ => 0⟩

/-- Claim C8 witness: the sentinel branch evaluated with the identity sky
transform and a component whose x-position error is −1. -/
theorem claim_C8_witness :
    ((fun _ => (-1 : ℝ)) (0 * 6 + 1) < 0) ∧
    ((assembleSource (fun q => q) gridC8 gridC8 (mkBeam 1 1 0) 1 1 (fun _ => 0)
        (fun _ => -1) 0 0 0 0 (1, 1)).err_ra = -1 ∧
     (assembleSource (fun q => q) gridC8 gridC8 (mkBeam 1 1 0) 1 1 (fun _ => 0)
        (fun _ => -1) 0 0 0 0 (1, 1)).err_dec = -1) :=
  ⟨by norm_num,
   (claim_C8_position_errors (fun q => q) gridC8 gridC8 (mkBeam 1 1 0) 1 1
     (fun _ => 0) (fun _ => -1) 0 0 0 0 (1, 1)).1 (by norm_num)⟩

/-! ### Background and noise estimator (make_bkg_rms_image) -/

/-- Insert into an ascending-sorted list (realizes `np.sort`). -/
def insAsc (a : ℚ) : List ℚ → List ℚ
  | [] => [a]
  | b :: bs => if a ≤ b then a :: b :: bs else b :: insAsc a bs

/-- Ascending sort of a value list. -/
def sortAsc : List ℚ → List ℚ
  | [] => []
  | a :: as => insAsc a (sortAsc as)

/-- `scipy.stats.scoreatpercentile` of the era: sort the values, set
`idx = per/100*(n-1)`, return `values[int(idx)]` when `idx` is integral and
otherwise interpolate linearly between the two bracketing values.  For the
percentiles used (25 and 75) `idx` is nonnegative, so `int` is the floor. -/
def scoreatpercentile (l : List ℚ) (per : ℚ) : ℚ :=
  let v := sortAsc l
  let idx : ℚ := per / 100 * ((v.length : ℚ) - 1)
  let i : ℤ := ⌊idx⌋
  let frac : ℚ := idx - i
  if frac = 0 then v.getD i.toNat 0
  else v.getD i.toNat 0 + (v.getD (i.toNat + 1) 0 - v.getD i.toNat 0) * frac

/-- `rms_from_iqr` (`aegean.py` lines 688-693): interquartile range of the
finite values divided by 1.34896. -/
def rms_from_iqr (vals : List ℚ) : ℚ :=
  (scoreatpercentile vals 75 - scoreatpercentile vals 25) / (134896 / 100000)

/-- `bkg_from_middle` (`aegean.py` lines 695-698): `np.median` of the finite
values (mean of the two central values when their number is even). -/
def bkg_from_middle (vals : List ℚ) : ℚ :=
  let v := sortAsc vals
  let n := v.length
  if n % 2 = 1 then v.getD (n / 2) 0
  else (v.getD (n / 2 - 1) 0 + v.getD (n / 2) 0) / 2

/-- The finite values of the slice `data[y0:y1, x0:x1]` in row-major order
(rows of the grid are the image's y axis). -/
def regionFiniteVals (g : Grid (Option ℚ)) (y0 y1 x0 x1 : ℤ) : List ℚ :=
  ((coordsRowMajor g.rows g.cols).filter (fun p =>
    y0 ≤ (p.x : ℤ) ∧ (p.x : ℤ) < y1 ∧ x0 ≤ (p.y : ℤ) ∧ (p.y : ℤ) < x1)).filterMap
    (fun p => g.pix p)

/-- Python 2 `range(a, b, step)` for a positive step. -/
def pyRange (a bstop step : ℤ) : List ℤ :=
  if 0 < step ∧ a < bstop then
    (List.range (((bstop - a - 1) / step).toNat + 1)).map (fun k => a + step * (k : ℤ))
  else []

/-- `img[y0:y1, x0:x1] = v` on a dense map. -/
def fillRegion (f : Pix → ℚ) (y0 y1 x0 x1 : ℤ) (v : ℚ) : Pix → ℚ :=
  fun p => if y0 ≤ (p.x : ℤ) ∧ (p.x : ℤ) < y1 ∧ x0 ≤ (p.y : ℤ) ∧ (p.y : ℤ) < x1 then v
    else f p

/-- The tiling path of `make_bkg_rms_image` (`aegean.py` lines 630-681),
given the two mesh widths: tile boundaries anchored at the image centre with
boundary remainder tiles, overridden to a single whole-axis tile when the
mesh is at least the image size; each tile of the returned `(bkg, rms)` maps
is filled with the median and IQR-based rms of its finite values. -/
def tiling (data : Grid (Option ℚ)) (width_x width_y : ℤ) : Grid ℚ × Grid ℚ :=
  let img_y : ℤ := data.rows
  let img_x : ℤ := data.cols
  let xcen : ℤ := img_x / 2
  let ycen : ℤ := img_y / 2
  let xstart : ℤ := (xcen - width_x / 2) % width_x
  let ystart : ℤ := (ycen - width_y / 2) % width_y
  let xend : ℤ := img_x - (img_x - xstart) % width_x
  let yend : ℤ := img_y - (img_y - ystart) % width_y
  let xmins : List ℤ :=
    if width_x ≥ img_x then [0] else 0 :: (pyRange xstart xend width_x ++ [xend])
  let xmaxs : List ℤ :=
    if width_x ≥ img_x then [img_x]
    else xstart :: (pyRange (xstart + width_x) (xend + 1) width_x ++ [img_x])
  let ymins : List ℤ :=
    if width_y ≥ img_y then [0] else 0 :: (pyRange ystart yend width_y ++ [yend])
  let ymaxs : List ℤ :=
    if width_y ≥ img_y then [img_y]
    else ystart :: (pyRange (ystart + width_y) (yend + 1) width_y ++ [img_y])
  (xmins.zip xmaxs).foldl (fun maps xpair =>
    (ymins.zip ymaxs).foldl (fun maps ypair =>
      (⟨data.rows, data.cols, fillRegion maps.1.pix ypair.1 ypair.2 xpair.1 xpair.2
          (bkg_from_middle (regionFiniteVals data ypair.1 ypair.2 xpair.1 xpair.2))⟩,
       ⟨data.rows, data.cols, fillRegion maps.2.pix ypair.1 ypair.2 xpair.1 xpair.2
          (rms_from_iqr (regionFiniteVals data ypair.1 ypair.2 xpair.1 xpair.2))⟩))
      maps)
    (⟨data.rows, data.cols, fun _ => 0⟩, ⟨data.rows, data.cols, fun _ => 0⟩)

/-- `width_x` of `make_bkg_rms_image` line 634:
`mesh_size*int(max(abs(cos(pa)*b), abs(sin(pa)*a)))`. -/
noncomputable def widthX (beam : Beam) (mesh_size : ℕ) : ℤ :=
  mesh_size * pyint (max |Real.cos beam.pa * beam.b| |Real.sin beam.pa * beam.a|)

/-- `width_y` of `make_bkg_rms_image` line 635:
`mesh_size*int(max(abs(sin(pa)*b), abs(cos(pa)*a)))`. -/
noncomputable def widthY (beam : Beam) (mesh_size : ℕ) : ℤ :=
  mesh_size * pyint (max |Real.sin beam.pa * beam.b| |Real.cos beam.pa * beam.a|)

/-- `make_bkg_rms_image` (`aegean.py` lines 610-681): `if forced_rms:` — a
supplied NONZERO forced rms short-circuits to (all-zero background, constant
rms); `None` (and, by Python falsiness, a supplied 0.0) falls through to the
tiling estimator.  Returns `(bkgimg, rmsimg)`. -/
noncomputable def make_bkg_rms_image (data : Grid (Option ℚ)) (beam : Beam)
    (mesh_size : ℕ) (forced_rms : Option ℚ) : Grid ℚ × Grid ℚ :=
  match forced_rms with
  | some σ =>
    if σ ≠ 0 then
      (⟨data.rows, data.cols, fun _ => 0⟩, ⟨data.rows, data.cols, fun _ => σ⟩)
    else tiling data (widthX beam mesh_size) (widthY beam mesh_size)
  | none => tiling data (widthX beam mesh_size) (widthY beam mesh_size)

/-- Claim C7 (amended): for every supplied NONZERO `forced_rms` σ, the
background map is identically zero and the noise map identically σ, both of
the input's shape, with no tiling.  (σ = 0 is falsy in Python and falls
through to the tiling path — see the counterexample.) -/
theorem claim_C7_forced_rms_amended (data : Grid (Option ℚ)) (beam : Beam)
    (mesh_size : ℕ) (σ : ℚ) (hσ : σ ≠ 0) :
    (make_bkg_rms_image data beam mesh_size (some σ)).1.rows = data.rows ∧
    (make_bkg_rms_image data beam mesh_size (some σ)).1.cols = data.cols ∧
    (make_bkg_rms_image data beam mesh_size (some σ)).2.rows = data.rows ∧
    (make_bkg_rms_image data beam mesh_size (some σ)).2.cols = data.cols ∧
    (∀ p, (make_bkg_rms_image data beam mesh_size (some σ)).1.pix p = 0) ∧
    (∀ p, (make_bkg_rms_image data beam mesh_size (some σ)).2.pix p = σ) := by
  unfold make_bkg_rms_image
  dsimp only
  rw [if_pos hσ]
  exact ⟨rfl, rfl, rfl, rfl, fun _ => rfl, fun _ => rfl⟩

/-- A 1×1 flux grid for the C7 witness. -/
def dataW7 : Grid (Option ℚ) := ⟨1, 1, fun _ => some 5⟩

/-- Claim C7 witness: the amended statement at `forced_rms = 1`. -/
theorem claim_C7_amended_witness :
    ((1 : ℚ) ≠ 0) ∧
    ((make_bkg_rms_image dataW7 (mkBeam 1 1 0) 20 (some 1)).1.rows = dataW7.rows ∧
     (make_bkg_rms_image dataW7 (mkBeam 1 1 0) 20 (some 1)).1.cols = dataW7.cols ∧
     (make_bkg_rms_image dataW7 (mkBeam 1 1 0) 20 (some 1)).2.rows = dataW7.rows ∧
     (make_bkg_rms_image dataW7 (mkBeam 1 1 0) 20 (some 1)).2.cols = dataW7.cols ∧
     (∀ p, (make_bkg_rms_image dataW7 (mkBeam 1 1 0) 20 (some 1)).1.pix p = 0) ∧
     (∀ p, (make_bkg_rms_image dataW7 (mkBeam 1 1 0) 20 (some 1)).2.pix p = 1)) :=
  ⟨by norm_num, claim_C7_forced_rms_amended dataW7 (mkBeam 1 1 0) 20 1 (by norm_num)⟩

/-- A 2×2 all-ones flux grid whose tiled background is 1 everywhere. -/
def dataC7 : Grid (Option ℚ) := ⟨2, 2, fun _ => some 1⟩

set_option maxHeartbeats 2000000 in
/-- Claim C7 counterexample: with `forced_rms = 0` (falsy in Python) the
estimator runs the tiling path, and the returned background at (0,0) is the
median 1, not 0 — the claimed all-zero background fails for σ = 0. -/
theorem claim_C7_counterexample :
    (make_bkg_rms_image dataC7 (mkBeam 1 1 0) 20 (some 0)).1.pix ⟨0, 0⟩ = 1 ∧
    (make_bkg_rms_image dataC7 (mkBeam 1 1 0) 20 (some 0)).1.pix ⟨0, 0⟩ ≠ 0 := by
  have hwx : widthX (mkBeam 1 1 0) 20 = 20 := by
    unfold widthX mkBeam pyint
    simp [Real.cos_zero, Real.sin_zero]
  have hwy : widthY (mkBeam 1 1 0) 20 = 20 := by
    unfold widthY mkBeam pyint
    simp [Real.cos_zero, Real.sin_zero]
  have hval : (make_bkg_rms_image dataC7 (mkBeam 1 1 0) 20 (some 0)).1.pix ⟨0, 0⟩ = 1 := by
    unfold make_bkg_rms_image
    dsimp only
    rw [if_neg (by norm_num : ¬ ((0 : ℚ) ≠ 0))]
    rw [hwx, hwy]
    norm_num [tiling, pyRange, regionFiniteVals, coordsRowMajor, List.range_succ,
      fillRegion, bkg_from_middle, rms_from_iqr, scoreatpercentile, sortAsc,
      insAsc, dataC7]
  refine ⟨hval, ?_⟩
  rw [hval]
  norm_num
